import Mathlib

/-!
Verification of the crytemplate engine (cryMG/cryTemplate): a shallow
embedding of the tokenizing template parser (src/src/template-parser.ts),
the conditional test parser and evaluator (src/src/template-if.ts), the
loop parser and renderer (src/src/template-each.ts), the scope resolver and
value predicates (template-runtime, hardened version), and the HTML escape
helper (html-utils), together with theorems settling the frozen claims
about the natural language specification.

JavaScript runtime values are modelled by the inductive type JsValue.
Numbers are modelled as exact scaled decimals (JsNum): the engine performs
no arithmetic on numbers, it only builds them from decimal literals, array
lengths and loop indexes, compares them and prints them, and on that
fragment the decimal model matches the JavaScript float semantics.
Objects carry their own properties as an ordered association
list; each own property is a triple (name, isAccessor, value) where
isAccessor = true models a property that is defined through a getter or a
setter (the value component records the result the getter would produce,
which the engine never reads). A separate proto component models the
properties that are visible only through the prototype chain; the resolver
is proved to never consult it. Functions held in data are not representable
as values, mirroring that the engine gives template content no way to call
them.
-/

namespace CryTpl

/-- Exact decimal model of a JavaScript number: the value num / 10 ^ scale,
kept canonical (the scale is zero or num is not divisible by ten), so that
distinct representations denote distinct values and structural equality is
value equality. -/
structure JsNum where
  num : Int
  scale : Nat
  deriving DecidableEq, Repr

/-- Remove trailing factors of ten to reach the canonical representation. -/
def reduceJsNum : Int → Nat → JsNum
  | n, 0 => ⟨n, 0⟩
  | n, s + 1 => if n % 10 = 0 then reduceJsNum (n / 10) s else ⟨n, s + 1⟩

/-- Build the decimal number n / 10 ^ s in canonical form. -/
def JsNum.make (n : Int) (s : Nat) : JsNum := reduceJsNum n s

instance (n : Nat) : OfNat JsNum n := ⟨⟨n, 0⟩⟩

/-- Negation of a decimal number (canonical form is preserved). -/
def JsNum.neg (a : JsNum) : JsNum := ⟨-a.num, a.scale⟩

/-- Strict numeric order by cross multiplication. -/
def JsNum.lt (a b : JsNum) : Bool :=
  decide (a.num * (10 : Int) ^ b.scale < b.num * (10 : Int) ^ a.scale)

/-- Nonstrict numeric order by cross multiplication. -/
def JsNum.le (a b : JsNum) : Bool :=
  decide (a.num * (10 : Int) ^ b.scale ≤ b.num * (10 : Int) ^ a.scale)

/-- Model of a JavaScript value as used by the template engine. -/
inductive JsValue where
  | vUndefined : JsValue
  | vNull : JsValue
  | vBool (b : Bool) : JsValue
  | vNum (q : JsNum) : JsValue
  | vStr (s : String) : JsValue
  | vArr (elems : List JsValue) : JsValue
  | vObj (own : List (String × Bool × JsValue)) (proto : List (String × JsValue)) : JsValue

/-- Scope frame: one data object of the scope stack. Own properties and the
prototype chain are modelled as in JsValue.vObj. -/
structure JsFrame where
  own : List (String × Bool × JsValue)
  proto : List (String × JsValue)

/-- View a frame as the object value it denotes. -/
def JsFrame.toVal (f : JsFrame) : JsValue := .vObj f.own f.proto

/-- Convenience: a frame consisting of plain data properties only. -/
def dataFrame (l : List (String × JsValue)) : JsFrame :=
  ⟨l.map (fun p => (p.1, false, p.2)), []⟩

/-- Split a character list at every occurrence of the separator, like the
JavaScript String.prototype.split with a single-character separator: the
empty input yields one empty piece, and a trailing separator yields a
trailing empty piece. -/
def splitChar (sep : Char) : List Char → List (List Char)
  | [] => [[]]
  | c :: rest =>
      let r := splitChar sep rest
      if c = sep then [] :: r
      else
        match r with
        | h :: t => (c :: h) :: t
        | [] => [[c]]

/-- Object.getOwnPropertyDescriptor restricted to what the engine reads: the
first own property with the given name, returned as (isAccessor, value).
The prototype chain is not consulted, exactly as in the source. -/
def lookupOwn : List (String × Bool × JsValue) → String → Option (Bool × JsValue)
  | [], _ => none
  | (n, acc, v) :: rest, seg => if n = seg then some (acc, v) else lookupOwn rest seg

/-- Canonical array index: a nonempty digit string without a redundant
leading zero, as used by JavaScript array element property keys. -/
def decodeArrayIndex (s : String) : Option Nat :=
  let cs := s.data
  if cs ≠ [] ∧ cs.all (fun c => c.isDigit) ∧ (cs.head? = some '0' → cs = ['0']) then
    some (cs.foldl (fun n c => n * 10 + (c.toNat - 48)) 0)
  else none

/-- Own properties of an array as observed through hasOwnProperty and
getOwnPropertyDescriptor: the element slots and the length property, all of
them plain data properties. -/
def jsArrLookupOwn (elems : List JsValue) (seg : String) : Option (Bool × JsValue) :=
  if seg = "length" then some (false, .vNum ⟨(elems.length : Int), 0⟩) else
  match decodeArrayIndex seg with
  | some i =>
      match elems.get? i with
      | some v => some (false, v)
      | none => none
  | none => none

/-- Port of tplResolveFrom (src/unnamed/part_006, hardened version): resolve
a dot path from a value, reading only own data properties. A missing
segment, a non-object, or a segment backed by an accessor yields undefined;
the prototype component is never consulted. In the source the guard is
if (not cur or typeof cur is not object) return undefined, which admits
objects and arrays and rejects null together with every primitive. -/
def tplResolveFrom : JsValue → List String → JsValue
  | cur, [] => cur
  | .vObj own _, seg :: rest =>
      match lookupOwn own seg with
      | some (false, v) => tplResolveFrom v rest
      | some (true, _) => .vUndefined
      | none => .vUndefined
  | .vArr elems, seg :: rest =>
      match jsArrLookupOwn elems seg with
      | some (_, v) => tplResolveFrom v rest
      | none => .vUndefined
  | _, _ :: _ => .vUndefined

/-- Inner loop of tplResolveKey: scan frames innermost-first for an own
property under the first path segment; an own accessor property makes the
loop continue with the next outer frame (the source continues without
reading the accessor). -/
def tplResolveKeyLoop : List JsFrame → String → List String → Option JsValue
  | [], _, _ => none
  | f :: outer, seg0, rest =>
      match lookupOwn f.own seg0 with
      | some (false, v) => some (tplResolveFrom v rest)
      | some (true, _) => tplResolveKeyLoop outer seg0 rest
      | none => tplResolveKeyLoop outer seg0 rest

/-- Port of tplResolveKey (src/unnamed/part_006, hardened version): split the
key at dots, walk the scope stack from innermost to outermost looking for an
own data property under the first segment, and resolve the remaining
segments inside that value. If no frame provides the first segment, fall
back to resolving the full path from the root frame (index 0); with an
empty stack the root frame reads as undefined. -/
def tplResolveKey (scopes : List JsFrame) (key : String) : JsValue :=
  let parts := (splitChar '.' key.data).map String.mk
  match tplResolveKeyLoop scopes.reverse parts.headI parts.tail with
  | some v => v
  | none =>
      match scopes with
      | [] => tplResolveFrom .vUndefined parts
      | f :: _ => tplResolveFrom f.toVal parts

/-- Port of tplTruthy: arrays are truthy iff nonempty, objects iff they have
at least one own key (Object.keys), all other values use Boolean coercion. -/
def tplTruthy : JsValue → Bool
  | .vArr es => !es.isEmpty
  | .vObj own _ => !own.isEmpty
  | .vBool b => b
  | .vNum q => q != 0
  | .vStr s => !(s = "")
  | .vNull => false
  | .vUndefined => false

/-- Port of tplEmptyish: undefined, null, the empty string, an empty array
and an empty object are empty-ish; 0 and false are not. -/
def tplEmptyish : JsValue → Bool
  | .vUndefined => true
  | .vNull => true
  | .vStr s => s = ""
  | .vArr es => es.isEmpty
  | .vObj own _ => own.isEmpty
  | _ => false

/-- Port of escapeHtml (html-utils): single pass replacement of the five
HTML special characters. -/
def escapeHtmlChar (c : Char) : String :=
  if c = '&' then "&amp;"
  else if c = '<' then "&lt;"
  else if c = '>' then "&gt;"
  else if c = '"' then "&quot;"
  else if c = '\x27' then "&#39;"
  else String.singleton c

/-- Port of escapeHtml over a whole string. -/
def escapeHtml (s : String) : String := String.join (s.data.map escapeHtmlChar)

/-! ## JavaScript coercions used by the renderer and the test evaluator -/

/-- Whitespace as matched by a JavaScript regular expression class for
whitespace (ASCII fragment). -/
def jsIsSpace (c : Char) : Bool :=
  c == ' ' || c == '\t' || c == '\n' || c == '\r' || c == '\x0b' || c == '\x0c'

/-- Trim leading and trailing whitespace from a character list, as
String.prototype.trim does. -/
def jsTrimChars (cs : List Char) : List Char :=
  ((cs.dropWhile jsIsSpace).reverse.dropWhile jsIsSpace).reverse

/-- Numeric value of a digit list. -/
def digitsToNat (cs : List Char) : Nat :=
  cs.foldl (fun n c => n * 10 + (c.toNat - 48)) 0

/-- Model of String(n) for a JavaScript number: sign, integer part, and the
fractional digits left-padded with zeros to the scale (the canonical form
has no trailing fractional zeros), matching the JavaScript printing of the
decimal values the engine constructs. -/
def jsNumToString (q : JsNum) : String :=
  let sign := if q.num < 0 then "-" else ""
  let m := q.num.natAbs
  if q.scale = 0 then sign ++ toString m
  else
    let base := 10 ^ q.scale
    let digits := toString (m % base)
    sign ++ toString (m / base) ++ "." ++
      String.mk (List.replicate (q.scale - digits.length) '0') ++ digits

mutual

/-- Model of String(v): generic JavaScript stringification. Arrays join their
elements with commas, rendering null and undefined elements as empty. -/
def jsToString : JsValue → String
  | .vStr s => s
  | .vNum q => jsNumToString q
  | .vBool b => if b then "true" else "false"
  | .vNull => "null"
  | .vUndefined => "undefined"
  | .vArr es => jsArrToString es
  | .vObj _ _ => "[object Object]"

def jsArrToString : List JsValue → String
  | [] => ""
  | [v] => jsElemToString v
  | v :: rest => jsElemToString v ++ "," ++ jsArrToString rest

/-- Array elements stringify like jsToString except that null and undefined
elements render as the empty string (Array.prototype.join). -/
def jsElemToString : JsValue → String
  | .vNull => ""
  | .vUndefined => ""
  | .vStr s => s
  | .vNum q => jsNumToString q
  | .vBool b => if b then "true" else "false"
  | .vArr es => jsArrToString es
  | .vObj _ _ => "[object Object]"

end

/-- Decimal numeric literal body: digits with an optional fraction, or a
fraction alone, as accepted by Number() (decimal fragment without
exponents, which the engine never feeds it). -/
def parseDecimalCore (cs : List Char) : Option JsNum :=
  let intPart := cs.takeWhile Char.isDigit
  let rest := cs.drop intPart.length
  match rest with
  | [] => if intPart.isEmpty then none else some (JsNum.make (digitsToNat intPart) 0)
  | '.' :: rest2 =>
      let fracPart := rest2.takeWhile Char.isDigit
      let rest3 := rest2.drop fracPart.length
      if !rest3.isEmpty then none
      else if intPart.isEmpty && fracPart.isEmpty then none
      else some (JsNum.make
        (digitsToNat intPart * 10 ^ fracPart.length + digitsToNat fracPart : Nat)
        fracPart.length)
  | _ => none

/-- Model of Number(s) on a string: trim, empty means zero, otherwise an
optionally signed decimal literal; anything else is NaN (none). -/
def jsStrToNumber (s : String) : Option JsNum :=
  match jsTrimChars s.data with
  | [] => some 0
  | '+' :: rest => parseDecimalCore rest
  | '-' :: rest => (parseDecimalCore rest).map JsNum.neg
  | cs => parseDecimalCore cs

/-- Model of Number(v): numeric coercion; none models NaN. Arrays coerce
through their string form; plain objects are NaN. -/
def jsToNumber : JsValue → Option JsNum
  | .vNum q => some q
  | .vBool b => some (if b then 1 else 0)
  | .vNull => some 0
  | .vUndefined => none
  | .vStr s => jsStrToNumber s
  | .vArr es => jsStrToNumber (jsArrToString es)
  | .vObj _ _ => none

/-- Model of Boolean(v): ordinary JavaScript boolean coercion (every object
and array is true, unlike tplTruthy). -/
def jsBoolCoerce : JsValue → Bool
  | .vUndefined => false
  | .vNull => false
  | .vBool b => b
  | .vNum q => q != 0
  | .vStr s => !(s = "")
  | .vArr _ => true
  | .vObj _ _ => true

/-! ## Test expression AST (template-if.ts) -/

/-- Literal value inside a test or a fallback chain: string, number,
boolean or null. -/
inductive TplLit where
  | str (s : String) : TplLit
  | num (q : JsNum) : TplLit
  | bool (b : Bool) : TplLit
  | null : TplLit

/-- Value of a literal. -/
def TplLit.toVal : TplLit → JsValue
  | .str s => .vStr s
  | .num q => .vNum q
  | .bool b => .vBool b
  | .null => .vNull

/-- Comparison operator of the test grammar. -/
inductive TplCompareOp where
  | eq | ne | gt | lt | ge | le

/-- Side of a comparison: a key (identifier or dot path) or a literal;
also the right-hand side of a fallback link (TplIfTestCompareRight). -/
inductive TplExpr where
  | key (k : String) : TplExpr
  | lit (v : TplLit) : TplExpr

/-- Test AST (TplIfTest from types.ts). -/
inductive TplIfTest where
  | truthy (key : String) (negated : Bool) : TplIfTest
  | truthyLit (value : TplLit) (negated : Bool) : TplIfTest
  | compare (left : TplExpr) (op : TplCompareOp) (right : TplExpr) (negated : Bool) : TplIfTest
  | andN (nodes : List TplIfTest) : TplIfTest
  | orN (nodes : List TplIfTest) : TplIfTest
  | notN (node : TplIfTest) : TplIfTest

/-! ## Test expression tokenizer (tplParseTest, first half) -/

/-- Token of the test expression tokenizer. -/
inductive TestTok where
  | lparen | rparen
  | andT | orT | notT | bangT
  | comp (op : TplCompareOp)
  | lit (v : TplLit)
  | key (s : String)

/-- Word character of the regular expression class backslash-w. -/
def isWordCh (c : Char) : Bool := c.isAlphanum || c == '_'

/-- Character allowed after the first character of an identifier or dot
path (word characters and the dot). -/
def isWordDotCh (c : Char) : Bool := c.isAlphanum || c == '_' || c == '.'

/-- First character of an identifier. -/
def isIdentStartCh (c : Char) : Bool := c.isAlpha || c == '_'

/-- ASCII lower-casing of one character (the fragment the engine needs). -/
def charToLower (c : Char) : Char :=
  if 'A' ≤ c ∧ c ≤ 'Z' then Char.ofNat (c.toNat + 32) else c

/-- Case-insensitive full-string equality, as the anchored regular
expressions with the i flag test. -/
def eqCI (a b : String) : Bool := a.data.map charToLower == b.data.map charToLower

/-- Scan a quoted string literal body: consume up to the closing quote,
dropping one backslash before each escaped character; an unterminated
literal takes the rest of the input. Returns the literal content and the
number of characters consumed (including the closing quote). -/
def scanString (quote : Char) : List Char → String × Nat
  | [] => ("", 0)
  | '\\' :: d :: rest =>
      let (s, n) := scanString quote rest
      (String.singleton d ++ s, n + 2)
  | c :: rest =>
      if c = quote then ("", 1)
      else
        let (s, n) := scanString quote rest
        (String.singleton c ++ s, n + 1)

/-- Scan a numeric literal matching the anchored prefix pattern: optional
sign, digits, optional fraction with at least one digit. Returns its value
and the number of characters consumed (at least one on success), or none
when the pattern does not match here. -/
def scanNumber (cs : List Char) : Option (JsNum × Nat) :=
  let signAndBody : Nat × Bool × List Char :=
    match cs with
    | '+' :: r => (1, false, r)
    | '-' :: r => (1, true, r)
    | _ => (0, false, cs)
  let signLen := signAndBody.1
  let sign := signAndBody.2.1
  let cs1 := signAndBody.2.2
  let ds := cs1.takeWhile Char.isDigit
  if ds.isEmpty then none
  else
    let cs2 := cs1.drop ds.length
    let fracDigits : List Char :=
      match cs2 with
      | '.' :: r =>
          let f := r.takeWhile Char.isDigit
          if f.isEmpty then [] else f
      | _ => []
    let fracLen := if fracDigits.isEmpty then 0 else fracDigits.length + 1
    let mag : JsNum := JsNum.make
      (digitsToNat ds * 10 ^ fracDigits.length + digitsToNat fracDigits : Nat)
      fracDigits.length
    some ((if sign then mag.neg else mag), signLen + ds.length + fracLen)

/-- Word boundary after the word not: end of input or a non word
character. -/
def notBoundaryOk (l : List Char) : Bool :=
  match l.head? with
  | none => true
  | some d => !isWordCh d

/-- Tokenizer loop of tplParseTest, in the priority order of the source:
whitespace, parentheses, two-character logical operators, two-character
then one-character comparisons, bang, the word not (lowercase ot, word
boundary), quoted strings, numbers, identifiers (with the reserved words
true, false, null case-insensitively becoming literals), and finally an
unknown character is skipped so that the scan always advances. The fuel
argument makes the recursion structural; every step consumes at least one
character, so the budget chosen at the entry point cannot run out. -/
def testTokenizeLoop : Nat → List Char → List TestTok
  | 0, _ => []
  | _, [] => []
  | fuel + 1, c :: rest =>
    if jsIsSpace c then testTokenizeLoop fuel rest
    else if c = '(' then .lparen :: testTokenizeLoop fuel rest
    else if c = ')' then .rparen :: testTokenizeLoop fuel rest
    else if c = '&' ∧ rest.head? = some '&' then .andT :: testTokenizeLoop fuel rest.tail
    else if c = '|' ∧ rest.head? = some '|' then .orT :: testTokenizeLoop fuel rest.tail
    else if c = '=' ∧ rest.head? = some '=' then .comp .eq :: testTokenizeLoop fuel rest.tail
    else if c = '!' ∧ rest.head? = some '=' then .comp .ne :: testTokenizeLoop fuel rest.tail
    else if c = '>' ∧ rest.head? = some '=' then .comp .ge :: testTokenizeLoop fuel rest.tail
    else if c = '<' ∧ rest.head? = some '=' then .comp .le :: testTokenizeLoop fuel rest.tail
    else if c = '>' then .comp .gt :: testTokenizeLoop fuel rest
    else if c = '<' then .comp .lt :: testTokenizeLoop fuel rest
    else if c = '!' then .bangT :: testTokenizeLoop fuel rest
    else if (c = 'N' ∨ c = 'n') ∧ rest.take 2 = ['o', 't'] ∧ notBoundaryOk (rest.drop 2) then
      .notT :: testTokenizeLoop fuel (rest.drop 2)
    else if c = '"' ∨ c = '\x27' then
      let (s, n) := scanString c rest
      .lit (.str s) :: testTokenizeLoop fuel (rest.drop n)
    else
      match scanNumber (c :: rest) with
      | some (q, n) =>
          -- n is at least one on success; dropping n - 1 from the tail
          -- consumes exactly the n matched characters.
          .lit (.num q) :: testTokenizeLoop fuel (rest.drop (n - 1))
      | none =>
        if isIdentStartCh c then
          let w := rest.takeWhile isWordDotCh
          let word := String.mk (c :: w)
          (if eqCI word "true" then .lit (.bool true)
           else if eqCI word "false" then .lit (.bool false)
           else if eqCI word "null" then .lit .null
           else .key word) :: testTokenizeLoop fuel (rest.drop w.length)
        else testTokenizeLoop fuel rest

/-- Tokenizer of tplParseTest. -/
def testTokenize (cs : List Char) : List TestTok :=
  testTokenizeLoop (cs.length + 1) cs

/-! ## Test expression recursive descent parser (tplParseTest, second half)

Each level returns the optionally parsed node together with the remaining
token list; the remaining list is returned even when the level fails,
because in the source the scan position is shared mutable state and tokens
consumed on a failed sub-parse stay consumed. The fuel argument bounds the
call depth (the source recursion is bounded because every nested call
consumes tokens); it is sized at the entry point so that it cannot run
out. -/

/-- Port of parseOperandTok: a literal or key token becomes an operand;
anything else leaves the token stream untouched. -/
def parseOperandTok : List TestTok → Option TplExpr × List TestTok
  | .lit v :: rest => (some (.lit v), rest)
  | .key k :: rest => (some (.key k), rest)
  | toks => (none, toks)

/-- Left operand of a comparison as rebuilt by parseCompare: only truthy or
truthy-literal primaries convert; grouped and/or/not/compare nodes yield
none. -/
def leftExprOf : TplIfTest → Option TplExpr
  | .truthyLit v _ => some (.lit v)
  | .truthy k _ => some (.key k)
  | _ => none

/-- Wrap one negation around a parse result, keeping failure as failure. -/
def wrapNot : Option TplIfTest × List TestTok → Option TplIfTest × List TestTok
  | (none, r) => (none, r)
  | (some t, r) => (some (.notN t), r)

mutual

/-- Port of parsePrimaryBase: a parenthesized expression (the closing
parenthesis is consumed when present, even around a failed inner parse) or
a literal/key operand as a truthy test. -/
def parsePrimaryBase : Nat → List TestTok → Option TplIfTest × List TestTok
  | 0, toks => (none, toks)
  | fuel + 1, toks =>
    match toks with
    | .lparen :: rest =>
        let (e, rest2) := parseOrT fuel rest
        let rest3 := match rest2 with
          | .rparen :: r => r
          | _ => rest2
        (e, rest3)
    | _ =>
        match parseOperandTok toks with
        | (some (.lit v), rest) => (some (.truthyLit v false), rest)
        | (some (.key k), rest) => (some (.truthy k false), rest)
        | (none, rest) => (none, rest)

/-- Port of parseCompare: a primary, optionally followed by a comparison
operator and an operand. When the primary is a grouped expression the
operator and right operand are consumed but the comparison is not applied
and the grouped expression itself is returned. -/
def parseCompareT : Nat → List TestTok → Option TplIfTest × List TestTok
  | 0, toks => (none, toks)
  | fuel + 1, toks =>
    match parsePrimaryBase fuel toks with
    | (none, rest) => (none, rest)
    | (some leftPrim, rest) =>
      match rest with
      | .comp op :: rest2 =>
          match parseOperandTok rest2 with
          | (none, rest3) => (none, rest3)
          | (some rightOp, rest3) =>
              match leftExprOf leftPrim with
              | none => (some leftPrim, rest3)
              | some l => (some (.compare l op rightOp false), rest3)
      | _ => (some leftPrim, rest)

/-- Port of parseUnary: leading bang and not tokens wrap the comparison in
negation nodes, one per token (the source counts them first and then wraps;
wrapping while recursing builds the same node). -/
def parseUnaryT : Nat → List TestTok → Option TplIfTest × List TestTok
  | 0, toks => (none, toks)
  | fuel + 1, toks =>
    match toks with
    | .bangT :: rest => wrapNot (parseUnaryT fuel rest)
    | .notT :: rest => wrapNot (parseUnaryT fuel rest)
    | _ => parseCompareT fuel toks

/-- Loop of parseAnd: keep consuming AND operators; a failed right operand
breaks the loop with the tokens it consumed staying consumed. -/
def parseAndLoop : Nat → List TplIfTest → List TestTok → List TplIfTest × List TestTok
  | 0, nodes, toks => (nodes, toks)
  | fuel + 1, nodes, toks =>
    match toks with
    | .andT :: rest =>
        match parseUnaryT fuel rest with
        | (none, rest2) => (nodes, rest2)
        | (some nx, rest2) => parseAndLoop fuel (nodes ++ [nx]) rest2
    | _ => (nodes, toks)

/-- Port of parseAnd: one unary, then the AND loop; a single node is
returned as itself. -/
def parseAndT : Nat → List TestTok → Option TplIfTest × List TestTok
  | 0, toks => (none, toks)
  | fuel + 1, toks =>
    match parseUnaryT fuel toks with
    | (none, rest) => (none, rest)
    | (some first, rest) =>
        match parseAndLoop fuel [first] rest with
        | ([_], rest2) => (some first, rest2)
        | (nodes, rest2) => (some (.andN nodes), rest2)

/-- Loop of parseOr. -/
def parseOrLoop : Nat → List TplIfTest → List TestTok → List TplIfTest × List TestTok
  | 0, nodes, toks => (nodes, toks)
  | fuel + 1, nodes, toks =>
    match toks with
    | .orT :: rest =>
        match parseAndT fuel rest with
        | (none, rest2) => (nodes, rest2)
        | (some nx, rest2) => parseOrLoop fuel (nodes ++ [nx]) rest2
    | _ => (nodes, toks)

/-- Port of parseOr: one AND chain, then the OR loop; a single node is
returned as itself. -/
def parseOrT : Nat → List TestTok → Option TplIfTest × List TestTok
  | 0, toks => (none, toks)
  | fuel + 1, toks =>
    match parseAndT fuel toks with
    | (none, rest) => (none, rest)
    | (some first, rest) =>
        match parseOrLoop fuel [first] rest with
        | ([_], rest2) => (some first, rest2)
        | (nodes, rest2) => (some (.orN nodes), rest2)

end

/-- Default test returned for inputs on which the grammar produces no node:
a negated truthy test on the empty key. -/
def tplDefaultTest : TplIfTest := .truthy "" true

/-- Port of tplParseTest: trim, tokenize, recursive descent with precedence
NOT over AND over OR; a failed parse yields the default negated empty key
truthy test. The fuel bounds the descent depth; every five consecutive
fuel decrements consume at least one token, so the chosen budget cannot
run out. -/
def tplParseTest (s : String) : TplIfTest :=
  let toks := testTokenize (jsTrimChars s.data)
  match (parseOrT (10 * toks.length + 10) toks).1 with
  | some ast => ast
  | none => tplDefaultTest

/-! ## Test evaluation (evalTest inside tplRenderIfNode) -/

/-- Resolve one side of a comparison: literal value or key resolution. -/
def resolveExpr (scopes : List JsFrame) : TplExpr → JsValue
  | .lit v => v.toVal
  | .key k => tplResolveKey scopes k

/-- Equality comparison of the test evaluator: coerce the left value toward
the type of the right value (number, boolean, null, otherwise string). -/
def jsEqCoerce (leftVal rightVal : JsValue) : Bool :=
  match rightVal with
  | .vNum rq =>
      match jsToNumber leftVal with
      | none => false
      | some ln => ln == rq
  | .vBool rb => jsBoolCoerce leftVal == rb
  | .vNull =>
      match leftVal with
      | .vNull => true
      | .vUndefined => true
      | _ => false
  | _ =>
      let ls := match leftVal with
        | .vNull => ""
        | .vUndefined => ""
        | v => jsToString v
      ls == jsToString rightVal

/-- Lexicographic string order by character code, as the JavaScript string
comparison operators compare (code unit order; identical on the code
points the engine handles). -/
def charListLt : List Char → List Char → Bool
  | [], [] => false
  | [], _ :: _ => true
  | _ :: _, [] => false
  | a :: as, b :: bs =>
      if a.toNat < b.toNat then true
      else if b.toNat < a.toNat then false
      else charListLt as bs

/-- Relational comparison of the test evaluator: numeric when both sides
coerce to numbers, otherwise lexicographic string comparison with null and
undefined reading as the empty string. -/
def jsRelCompare (op : TplCompareOp) (leftVal rightVal : JsValue) : Bool :=
  match jsToNumber leftVal, jsToNumber rightVal with
  | some ln, some rn =>
      match op with
      | .gt => JsNum.lt rn ln
      | .lt => JsNum.lt ln rn
      | .ge => JsNum.le rn ln
      | .le => JsNum.le ln rn
      | _ => false
  | _, _ =>
      let ls := match leftVal with
        | .vNull => ""
        | .vUndefined => ""
        | v => jsToString v
      let rs := match rightVal with
        | .vNull => ""
        | .vUndefined => ""
        | v => jsToString v
      match op with
      | .gt => charListLt rs.data ls.data
      | .lt => charListLt ls.data rs.data
      | .ge => !charListLt ls.data rs.data
      | .le => !charListLt rs.data ls.data
      | _ => false

/-- Comparison dispatch of the test evaluator. -/
def evalCompareVals (leftVal rightVal : JsValue) : TplCompareOp → Bool
  | .eq => jsEqCoerce leftVal rightVal
  | .ne => !(jsEqCoerce leftVal rightVal)
  | op => jsRelCompare op leftVal rightVal

mutual

/-- Port of evalTest: evaluate a parsed test against the scope stack. -/
def evalTest (scopes : List JsFrame) : TplIfTest → Bool
  | .truthy key neg =>
      let res := tplTruthy (tplResolveKey scopes key)
      if neg then !res else res
  | .truthyLit v neg =>
      let res := tplTruthy v.toVal
      if neg then !res else res
  | .notN t => !(evalTest scopes t)
  | .andN ts => evalTestAll scopes ts
  | .orN ts => evalTestAny scopes ts
  | .compare l op r neg =>
      let c := evalCompareVals (resolveExpr scopes l) (resolveExpr scopes r) op
      if neg then !c else c

/-- Conjunction loop of evalTest: false as soon as one child is false. -/
def evalTestAll (scopes : List JsFrame) : List TplIfTest → Bool
  | [] => true
  | t :: ts => if evalTest scopes t then evalTestAll scopes ts else false

/-- Disjunction loop of evalTest: true as soon as one child is true. -/
def evalTestAny (scopes : List JsFrame) : List TplIfTest → Bool
  | [] => false
  | t :: ts => if evalTest scopes t then true else evalTestAny scopes ts

end

/-! ## Template AST (types.ts) -/

/-- Output mode of an interpolation. -/
inductive TplMode where
  | escape | raw

/-- Fallback operator of an interpolation chain. -/
inductive FbOp where
  | orF | nullish

/-- One link of a fallback chain (TplFallbackLink). -/
structure TplFallbackLink where
  op : FbOp
  right : TplExpr

/-- One filter call (TplFilter from types.ts); args is none when the
source leaves the optional args field unset. -/
structure TplFilter where
  name : String
  args : Option (List TplLit)

/-- Template AST node (TplNode from types.ts). The optional fallbackChain
and filters fields of the source are modelled as plain lists, the empty
list standing for an absent field (the source only ever tests them for
nonemptiness). The alternate branch of an if node keeps its option status
because the else handler materializes an empty list. -/
inductive TplNode where
  | text (value : String) : TplNode
  | interp (key : String) (mode : TplMode) (fallbackChain : List TplFallbackLink)
      (filters : List TplFilter) : TplNode
  | ifN (test : TplIfTest) (consequent : List TplNode)
      (elseIfs : List (TplIfTest × List TplNode)) (alternate : Option (List TplNode)) : TplNode
  | eachN (listExpr : String) (varName : String) (indexVarName : Option String)
      (children : List TplNode) : TplNode

/-! ## Parser state (tplParse)

The source builds the AST through shared mutable node lists: the parser
keeps a stack of node-list references, and every open control frame holds a
reference (parentNodes) to the list that was on top when it opened. A
mismatched close pops the frame stack without popping the node-list stack,
after which those references are no longer the adjacent stack entries, so
positions in a stack cannot model them. The embedding therefore gives every
node list an identity: an arena (list of node lists indexed by id), a stack
of ids, and frames holding their parent list id. Child lists referenced
from if and each nodes are also ids, resolved to nested lists once parsing
ends; the references always point from older lists to younger ones, so the
resolution terminates. -/

/-- Parse-time payload of an if node: child lists as arena ids. -/
structure PIfData where
  test : TplIfTest
  consequentId : Nat
  elseIfs : List (TplIfTest × Nat)
  alternateId : Option Nat

/-- Parse-time payload of an each node: child list as an arena id. -/
structure PEachData where
  listExpr : String
  varName : String
  indexVarName : Option String
  childrenId : Nat

/-- Parse-time template node. -/
inductive PNode where
  | text (value : String) : PNode
  | interp (key : String) (mode : TplMode) (fallbackChain : List TplFallbackLink)
      (filters : List TplFilter) : PNode
  | ifN (d : PIfData) : PNode
  | eachN (d : PEachData) : PNode

/-- Open control frame (Frame from types.ts): the node payload under
construction and the arena id of its parent node list. -/
inductive PFrame where
  | ifF (d : PIfData) (parentId : Nat) (inAlternate : Bool) : PFrame
  | eachF (d : PEachData) (parentId : Nat) : PFrame

/-- State of one tplParse run: the arena of node lists (the root list is id
zero), the node-list stack as ids (head is the top), and the control frame
stack (head is the top). -/
structure PState where
  arena : List (List PNode)
  stackIds : List Nat
  frames : List PFrame

/-- Append a node to the arena list with the given id, in one pass (the
source pushes onto the referenced list in place). An out-of-range id
leaves the arena unchanged; ids handed out by the parser are always in
range. -/
def arenaAppendAt : List (List PNode) → Nat → PNode → List (List PNode)
  | [], _, _ => []
  | l :: rest, 0, n => (l ++ [n]) :: rest
  | l :: rest, i + 1, n => l :: arenaAppendAt rest i n

/-- Length of the arena list with the given id. -/
def arenaLenAt : List (List PNode) → Nat → Nat
  | [], _ => 0
  | l :: _, 0 => l.length
  | _ :: rest, i + 1 => arenaLenAt rest i

/-- Port of tplPush: append a node to the list on top of the node-list
stack (the stack is never empty while parsing). -/
def tplPushP (st : PState) (n : PNode) : PState :=
  match st with
  | ⟨arena, sids, frames⟩ => ⟨arenaAppendAt arena (sids.headD 0) n, sids, frames⟩

/-- Port of tplParseIfOpen: parse the test, open an if frame whose parent is
the current top list, and push the fresh consequent list (the fresh list id
is the arena length). -/
def tplParseIfOpen (expr : String) (st : PState) : PState :=
  match st with
  | ⟨arena, sids, frames⟩ =>
      let cid := arena.length
      let d : PIfData := ⟨tplParseTest expr, cid, [], none⟩
      ⟨arena ++ [[]], cid :: sids, .ifF d (sids.headD 0) false :: frames⟩

/-- Port of tplParseElseIf: only valid when the top frame is an if frame not
yet in its alternate branch; otherwise the literal token text is pushed and
the state is otherwise unchanged. On success the current branch list is
popped and a fresh branch list is pushed. -/
def tplParseElseIf (expr literal : String) (st : PState) : PState × Bool :=
  match st with
  | ⟨arena, sids, frames⟩ =>
    match frames with
    | .ifF d parentId false :: restFrames =>
        let bid := arena.length
        let d2 := { d with elseIfs := d.elseIfs ++ [(tplParseTest expr, bid)] }
        (⟨arena ++ [[]], bid :: sids.tail, .ifF d2 parentId false :: restFrames⟩, false)
    | fs => (⟨arenaAppendAt arena (sids.headD 0) (.text literal), sids, fs⟩, true)

/-- Port of tplParseElse: same placement rule as elseif; on success the
alternate list is materialized and the frame is marked as being in its
alternate branch. -/
def tplParseElse (literal : String) (st : PState) : PState × Bool :=
  match st with
  | ⟨arena, sids, frames⟩ =>
    match frames with
    | .ifF d parentId false :: restFrames =>
        let aid := arena.length
        let d2 := { d with alternateId := some aid }
        (⟨arena ++ [[]], aid :: sids.tail, .ifF d2 parentId true :: restFrames⟩, false)
    | fs => (⟨arenaAppendAt arena (sids.headD 0) (.text literal), sids, fs⟩, true)

/-- Port of tplParseEndIf: the top frame is popped first; when it is not an
if frame (or there is none) the literal token text is pushed, with the
popped frame staying popped, exactly as in the source. On success the top
node list is popped and the finished node is appended to the parent list
recorded in the frame. -/
def tplParseEndIf (literal : String) (st : PState) : PState × Bool :=
  match st with
  | ⟨arena, sids, frames⟩ =>
    match frames with
    | .ifF d parentId _ :: restFrames =>
        (⟨arenaAppendAt arena parentId (.ifN d), sids.tail, restFrames⟩, false)
    | .eachF _ _ :: restFrames =>
        (⟨arenaAppendAt arena (sids.headD 0) (.text literal), sids, restFrames⟩, true)
    | [] => (⟨arenaAppendAt arena (sids.headD 0) (.text literal), sids, []⟩, true)

/-- Port of tplParseEachOpen: open an each frame whose parent is the current
top list and push the fresh children list. -/
def tplParseEachOpen (listExpr varName : String) (indexVarName : Option String)
    (st : PState) : PState :=
  match st with
  | ⟨arena, sids, frames⟩ =>
      let cid := arena.length
      let d : PEachData := ⟨listExpr, varName, indexVarName, cid⟩
      ⟨arena ++ [[]], cid :: sids, .eachF d (sids.headD 0) :: frames⟩

/-- Port of tplParseEndEach: mirror image of tplParseEndIf. -/
def tplParseEndEach (literal : String) (st : PState) : PState × Bool :=
  match st with
  | ⟨arena, sids, frames⟩ =>
    match frames with
    | .eachF d parentId :: restFrames =>
        (⟨arenaAppendAt arena parentId (.eachN d), sids.tail, restFrames⟩, false)
    | .ifF _ _ _ :: restFrames =>
        (⟨arenaAppendAt arena (sids.headD 0) (.text literal), sids, restFrames⟩, true)
    | [] => (⟨arenaAppendAt arena (sids.headD 0) (.text literal), sids, []⟩, true)

/-! ## Control token keyword and each pattern matching -/

/-- Simple identifier of the each pattern: a letter or underscore followed
by word characters (no dots). Returns the identifier and the rest. -/
def scanIdentSimple : List Char → Option (String × List Char)
  | [] => none
  | c :: rest =>
      if isIdentStartCh c then
        let w := rest.takeWhile isWordCh
        some (String.mk (c :: w), rest.drop w.length)
      else none

/-- Anchored keyword-plus-whitespace pattern of the control dispatch: the
keyword case-insensitively, then at least one whitespace character; the
returned rest is what removing the match leaves of the raw contents. -/
def matchKeywordSpace (kw : String) (cs : List Char) : Option (List Char) :=
  if eqCI (String.mk (cs.take kw.length)) kw then
    let rest := cs.drop kw.length
    let ws := rest.takeWhile jsIsSpace
    if ws.isEmpty then none else some (rest.drop ws.length)
  else none

/-- Tail of the each pattern after the lazy list-expression group: at least
one whitespace, the word as (case-insensitive), at least one whitespace,
the loop variable, optionally comma and index variable, anchored at the
end. -/
def matchEachTail (rest : List Char) : Option (String × Option String) :=
  let ws1 := rest.takeWhile jsIsSpace
  if ws1.isEmpty then none else
  match rest.drop ws1.length with
  | a :: s :: r2 =>
      if charToLower a = 'a' ∧ charToLower s = 's' then
        let ws2 := r2.takeWhile jsIsSpace
        if ws2.isEmpty then none else
        match scanIdentSimple (r2.drop ws2.length) with
        | none => none
        | some (v, r4) =>
            match r4 with
            | [] => some (v, none)
            | _ =>
                let ws3 := r4.takeWhile jsIsSpace
                match r4.drop ws3.length with
                | ',' :: r6 =>
                    let ws4 := r6.takeWhile jsIsSpace
                    match scanIdentSimple (r6.drop ws4.length) with
                    | some (ix, []) => some (v, some ix)
                    | _ => none
                | _ => none
      else none
  | _ => none

/-- Lazy scan of the each list-expression group: find the shortest nonempty
prefix of non-newline characters whose remainder matches the tail
pattern. -/
def matchEachFrom (g1rev : List Char) : List Char → Option (String × String × Option String)
  | [] => none
  | c :: rest =>
      if c = '\n' ∨ c = '\r' then none
      else
        match matchEachTail rest with
        | some (v, ix) => some (String.mk (c :: g1rev).reverse, v, ix)
        | none => matchEachFrom (c :: g1rev) rest

/-- Backtracking over the greedy whitespace run after the keyword: the run
is tried at full length first; on failure its characters are given back one
by one to the list-expression scan, as the regular expression engine
backtracks the greedy quantifier before the lazy group can start inside the
whitespace. The run is passed reversed. -/
def matchEachWithWs : List Char → List Char → Option (String × String × Option String)
  | runRev, body =>
      match matchEachFrom [] body with
      | some r => some r
      | none =>
          match runRev with
          | [] => none
          | [_] => none
          | w :: restRev => matchEachWithWs restRev (w :: body)

/-- Port of the each token pattern: keyword each, whitespace, the lazy
list-expression group, and the tail. Returns the untrimmed list
expression, the loop variable, and the optional index variable. -/
def matchEach (cs : List Char) : Option (String × String × Option String) :=
  if eqCI (String.mk (cs.take 4)) "each" then
    let rest := cs.drop 4
    let ws := rest.takeWhile jsIsSpace
    if ws.isEmpty then none
    else matchEachWithWs ws.reverse (rest.drop ws.length)
  else none

/-- Port of tplParseEach: on a pattern match open the each frame with the
trimmed list expression, otherwise preserve the literal token text. -/
def tplParseEach (raw literal : String) (st : PState) : PState × Bool :=
  match matchEach raw.data with
  | none => (tplPushP st (.text literal), true)
  | some (listExpr, varName, ix) =>
      (tplParseEachOpen (String.mk (jsTrimChars listExpr.data)) varName ix st, false)

/-! ## Interpolation parsing (tplParse, interpolation branch) -/

/-- Port of tplIsIdentifier: the identifier or dot-path grammar. -/
def tplIsIdentifier (s : String) : Bool :=
  match s.data with
  | [] => false
  | c :: rest => isIdentStartCh c && rest.all isWordDotCh

/-- Whether the first list is a leading segment of the second. -/
def isPrefixOfChars : List Char → List Char → Bool
  | [], _ => true
  | _ :: _, [] => false
  | a :: as, b :: bs => a == b && isPrefixOfChars as bs

/-- Replace every nonoverlapping occurrence of a nonempty pattern, left to
right, as String.prototype.replace with a global pattern does. The fuel is
the input length; every step consumes at least one character. -/
def listReplaceAll (pat repl : List Char) : Nat → List Char → List Char
  | 0, cs => cs
  | _, [] => []
  | fuel + 1, c :: rest =>
      if pat ≠ [] ∧ isPrefixOfChars pat (c :: rest) then
        repl ++ listReplaceAll pat repl fuel ((c :: rest).drop pat.length)
      else c :: listReplaceAll pat repl fuel rest

/-- Unescape a quoted literal body: collapse double backslashes, then
unescape the quote character, the two replacement passes of the source. -/
def unescapeQuoted (quote : Char) (inner : List Char) : List Char :=
  let s1 := listReplaceAll ['\\', '\\'] ['\\'] (inner.length + 1) inner
  listReplaceAll ['\\', quote] [quote] (s1.length + 1) s1

/-- Full-string signed decimal literal: optional sign, digits, optional
fraction with at least one digit (the anchored literal pattern shared by
parseRight and parseArg). -/
def parseNumLitFull (cs : List Char) : Option JsNum :=
  let sb : Bool × List Char :=
    match cs with
    | '+' :: r => (false, r)
    | '-' :: r => (true, r)
    | _ => (false, cs)
  let ds := sb.2.takeWhile Char.isDigit
  if ds.isEmpty then none
  else
    match sb.2.drop ds.length with
    | [] =>
        let m := JsNum.make (digitsToNat ds) 0
        some (if sb.1 then m.neg else m)
    | '.' :: r2 =>
        let f := r2.takeWhile Char.isDigit
        if f.isEmpty ∨ r2.drop f.length ≠ [] then none
        else
          let m := JsNum.make (digitsToNat ds * 10 ^ f.length + digitsToNat f : Nat) f.length
          some (if sb.1 then m.neg else m)
    | _ => none

/-- Port of parseArg in tplParse: a quoted string (with backslash
unescaping), number, boolean or null literal; anything else is undefined
(none), and identifiers are not accepted. -/
def tplParseArg (s : List Char) : Option TplLit :=
  match s with
  | q :: rest =>
      if (q = '"' ∨ q = '\x27') ∧ rest.getLast? = some q ∧ rest.length ≥ 1 then
        some (.str (String.mk (unescapeQuoted q rest.dropLast)))
      else
        match parseNumLitFull s with
        | some n => some (.num n)
        | none =>
            if eqCI (String.mk s) "true" then some (.bool true)
            else if eqCI (String.mk s) "false" then some (.bool false)
            else if eqCI (String.mk s) "null" then some .null
            else none
  | [] => none

/-- Port of parseRight in tplParse: the literal grammar of tplParseArg,
and additionally an identifier or dot-path as a key (the source spells the
two functions out separately with identical literal branches). -/
def tplParseRight (s : List Char) : Option TplExpr :=
  match tplParseArg s with
  | some l => some (.lit l)
  | none => if tplIsIdentifier (String.mk s) then some (.key (String.mk s)) else none

/-- Scan the interpolation expression for the first single pipe outside
quotes (a double pipe is skipped as the fallback operator); returns the
part before it (untrimmed) and the filters segment beginning at the pipe.
Fuel is the expression length. -/
def findFilterSplit : Nat → Option Char → List Char → List Char → Option (List Char × List Char)
  | 0, _, _, _ => none
  | _ + 1, _, _, [] => none
  | fuel + 1, some q, pre, c :: rest =>
      if c = '\\' then
        match rest with
        | d :: r2 => findFilterSplit fuel (some q) (d :: c :: pre) r2
        | [] => findFilterSplit fuel (some q) (c :: pre) []
      else if c = q then findFilterSplit fuel none (c :: pre) rest
      else findFilterSplit fuel (some q) (c :: pre) rest
  | fuel + 1, none, pre, c :: rest =>
      if c = '"' ∨ c = '\x27' then findFilterSplit fuel (some c) (c :: pre) rest
      else if c = '|' then
        match rest with
        | '|' :: r2 => findFilterSplit fuel none ('|' :: '|' :: pre) r2
        | _ => some (pre.reverse, c :: rest)
      else findFilterSplit fuel none (c :: pre) rest

/-- Split the expression at top-level double-pipe and double-question
operators, respecting quotes and escapes; parts are trimmed and empty
parts are dropped, while the operator list keeps every operator, exactly
as in the source (so the lists can misalign around an empty part). Fuel is
the expression length; the buffer is kept reversed. -/
def fallbackSplit : Nat → Option Char → List Char → List String → List FbOp → List Char →
    List String × List FbOp
  | 0, _, buf, parts, ops, _ =>
      let last := jsTrimChars buf.reverse
      (if last.isEmpty then parts else parts ++ [String.mk last], ops)
  | _ + 1, _, buf, parts, ops, [] =>
      let last := jsTrimChars buf.reverse
      (if last.isEmpty then parts else parts ++ [String.mk last], ops)
  | fuel + 1, some q, buf, parts, ops, c :: rest =>
      if c = '\\' then
        match rest with
        | d :: r2 => fallbackSplit fuel (some q) (d :: c :: buf) parts ops r2
        | [] => fallbackSplit fuel (some q) (c :: buf) parts ops []
      else if c = q then fallbackSplit fuel none (c :: buf) parts ops rest
      else fallbackSplit fuel (some q) (c :: buf) parts ops rest
  | fuel + 1, none, buf, parts, ops, c :: rest =>
      if c = '"' ∨ c = '\x27' then fallbackSplit fuel (some c) (c :: buf) parts ops rest
      else if (c = '|' ∨ c = '?') ∧ rest.head? = some c then
        let part := jsTrimChars buf.reverse
        let parts2 := if part.isEmpty then parts else parts ++ [String.mk part]
        fallbackSplit fuel none [] parts2
          (ops ++ [if c = '|' then FbOp.orF else FbOp.nullish]) rest.tail
      else fallbackSplit fuel none (c :: buf) parts ops rest

/-- Port of the fallback chain construction loop: pair each right-hand part
with its operator; the first part that fails to parse clears the whole
chain (the source empties the array and breaks). The operator list is
always at least as long as the remaining parts, so the default of headD is
never used. -/
def buildFallbackChain : List FbOp → List String → List TplFallbackLink → List TplFallbackLink
  | _, [], acc => acc
  | ops, r :: rest, acc =>
      match tplParseRight r.data with
      | none => []
      | some right => buildFallbackChain ops.tail rest (acc ++ [⟨ops.headD .orF, right⟩])

/-- Split filter arguments at top-level commas outside quotes, collecting
the raw segments (the buffer is kept reversed; fuel is the input
length). -/
def splitFilterArgs : Nat → Option Char → List Char → List (List Char) → List Char →
    List (List Char)
  | 0, _, buf, acc, _ => acc ++ [buf.reverse]
  | _ + 1, _, buf, acc, [] => acc ++ [buf.reverse]
  | fuel + 1, some q, buf, acc, c :: rest =>
      if c = '\\' then
        match rest with
        | d :: r2 => splitFilterArgs fuel (some q) (d :: c :: buf) acc r2
        | [] => splitFilterArgs fuel (some q) (c :: buf) acc []
      else if c = q then splitFilterArgs fuel none (c :: buf) acc rest
      else splitFilterArgs fuel (some q) (c :: buf) acc rest
  | fuel + 1, none, buf, acc, c :: rest =>
      if c = '"' ∨ c = '\x27' then splitFilterArgs fuel (some c) (c :: buf) acc rest
      else if c = ',' then splitFilterArgs fuel none [] (acc ++ [buf.reverse]) rest
      else splitFilterArgs fuel none (c :: buf) acc rest

/-- Parse the argument list of one filter call: split at commas, trim each
segment, parse it with tplParseArg and drop the undefined ones (the source
parses at each comma and, when nonempty, at the end; parsing the empty
trailing segment is harmless because it is undefined and dropped). -/
def parseFilterArgs (argsSrc : List Char) : List TplLit :=
  (splitFilterArgs (argsSrc.length + 1) none [] [] argsSrc).foldl
    (fun acc a =>
      match tplParseArg (jsTrimChars a) with
      | some l => acc ++ [l]
      | none => acc) []

/-- Parse one filter piece with the anchored pattern: a word name, optional
whitespace, and an optional parenthesized argument list that may not span
newlines and must close at the end; args stays unset when the list is
absent or blank. -/
def parseFilterPiece (rf : List Char) : Option TplFilter :=
  let name := rf.takeWhile isWordCh
  if name.isEmpty then none
  else
    let after := rf.drop name.length
    let after2 := after.drop (after.takeWhile jsIsSpace).length
    match after2 with
    | [] => some ⟨String.mk name, none⟩
    | '(' :: rest =>
        if rest.getLast? = some ')' ∧ rest.dropLast.all (fun c => c ≠ '\n' ∧ c ≠ '\r') then
          let argsSrc := rest.dropLast
          if (jsTrimChars argsSrc).isEmpty then some ⟨String.mk name, none⟩
          else some ⟨String.mk name, some (parseFilterArgs argsSrc)⟩
        else none
    | _ => none

/-- Port of the filters segment parsing: split at every pipe (a plain
split, not quote aware, as in the source), trim, drop empties, and keep
the pieces the filter pattern accepts. -/
def parseFiltersSeg (seg : List Char) : List TplFilter :=
  (((splitChar '|' seg).map jsTrimChars).filter (fun p => !p.isEmpty)).foldl
    (fun acc rf =>
      match parseFilterPiece rf with
      | some f => acc ++ [f]
      | none => acc) []

/-- Core of the interpolation body parsing inside tplParse, after the mode
marker and the filters segment have been split off: tokenize the fallback
chain and build the node; none means the token is preserved as literal
text. The only literal-preserve path is a non-identifier base part
together with a non-identifier whole expression. -/
def tplParseInterpCore (mode : TplMode) (expr : List Char)
    (filtersSeg : Option (List Char)) : Option PNode :=
  match fallbackSplit (expr.length + 1) none [] [] [] expr with
  | (p0 :: restParts, ops) =>
      if tplIsIdentifier p0 then
        some (.interp p0 mode (buildFallbackChain ops restParts [])
          (match filtersSeg with
           | some seg => parseFiltersSeg seg
           | none => []))
      else if tplIsIdentifier (String.mk expr) then some (.interp (String.mk expr) mode [] [])
      else none
  | ([], _) =>
      if tplIsIdentifier (String.mk expr) then some (.interp (String.mk expr) mode [] [])
      else none

/-- Split off the filters segment of an interpolation expression at the
first single pipe outside quotes, feeding the core. -/
def tplParseInterpExpr (mode : TplMode) (expr0 : List Char) : Option PNode :=
  match findFilterSplit (expr0.length + 1) none [] expr0 with
  | some (e, seg) => tplParseInterpCore mode (jsTrimChars e) (some seg)
  | none => tplParseInterpCore mode expr0 none

/-- Port of the interpolation body parsing inside tplParse: strip the
optional raw marker (the mode pattern of the source always matches, so its
failure branch is dead code), trim, and continue with the filters split
and the fallback chain. -/
def tplParseInterpInner (inner : List Char) : Option PNode :=
  match inner with
  | '=' :: rest => tplParseInterpExpr .raw (jsTrimChars rest)
  | _ => tplParseInterpExpr .escape (jsTrimChars inner)

/-! ## Main template scan (tplParse) -/

/-- Kind of token opener found by the scan. -/
inductive OpenKind where
  | interp | control | comment

/-- Earliest opener among the double brace, brace-percent and brace-hash
(at one position the double brace is preferred, as in the alternation
order of the source pattern). -/
def findOpener : List Char → Option (Nat × OpenKind)
  | '\x7b' :: '\x7b' :: _ => some (0, .interp)
  | '\x7b' :: '%' :: _ => some (0, .control)
  | '\x7b' :: '#' :: _ => some (0, .comment)
  | _ :: rest => (findOpener rest).map (fun p => (p.1 + 1, p.2))
  | [] => none

/-- Opener search from an index. -/
def findOpenerFrom (tpl : List Char) (i : Nat) : Option (Nat × OpenKind) :=
  (findOpener (tpl.drop i)).map (fun p => (p.1 + i, p.2))

/-- First index at which the pattern occurs. -/
def findSub (pat : List Char) : List Char → Option Nat
  | [] => if pat.isEmpty then some 0 else none
  | c :: rest =>
      if isPrefixOfChars pat (c :: rest) then some 0
      else (findSub pat rest).map (fun k => k + 1)

/-- Model of String.prototype.indexOf from a start index. -/
def indexOfFrom (tpl pat : List Char) (i : Nat) : Option Nat :=
  (findSub pat (tpl.drop i)).map (fun k => k + i)

/-- Model of String.prototype.slice from index i to index j. -/
def sub (tpl : List Char) (i j : Nat) : List Char :=
  (tpl.drop i).take (j - i)

/-- Whitespace trim mode of a token marker. -/
inductive TrimMode where
  | all | noNewlines

/-- Port of toTrimMode: dash trims all, tilde trims except newlines. -/
def toTrimMode : Option Char → Option TrimMode
  | some '-' => some .all
  | some '~' => some .noNewlines
  | _ => none

/-- Port of trimEndByMode: strip trailing whitespace, the noNewlines mode
keeping carriage returns and newlines. -/
def trimEndByMode (s : List Char) : Option TrimMode → List Char
  | none => s
  | some .all => (s.reverse.dropWhile jsIsSpace).reverse
  | some .noNewlines =>
      (s.reverse.dropWhile (fun c => jsIsSpace c && c != '\r' && c != '\n')).reverse

/-- Port of skipWsForwardByMode: advance the index past whitespace, the
noNewlines mode stopping at a carriage return or newline. -/
def skipWsForwardByMode (tpl : List Char) (idx0 : Nat) : Option TrimMode → Nat
  | none => idx0
  | some .all => idx0 + ((tpl.drop idx0).takeWhile jsIsSpace).length
  | some .noNewlines =>
      idx0 + ((tpl.drop idx0).takeWhile (fun c => jsIsSpace c && c != '\r' && c != '\n')).length

/-- Port of skipOneNewlineAfterControlToken: consume one carriage return
and newline pair, or one lone carriage return, or one newline, directly at
the index, and nothing else. -/
def skipOneNewlineAfterControlToken (tpl : List Char) (idx0 : Nat) : Nat :=
  match tpl.get? idx0 with
  | some '\r' =>
      match tpl.get? (idx0 + 1) with
      | some '\n' => idx0 + 2
      | _ => idx0 + 1
  | some '\n' => idx0 + 1
  | _ => idx0

/-- Trim the text node at one position of a node list (other nodes and
positions out of range are left unchanged). -/
def trimNodeAt : List PNode → Nat → TrimMode → List PNode
  | [], _, _ => []
  | n :: rest, 0, m =>
      (match n with
       | .text v => .text (String.mk (trimEndByMode v.data (some m)))
       | other => other) :: rest
  | n :: rest, pos + 1, m => n :: trimNodeAt rest pos m

/-- Single-pass trim of the text node at a list id and position in the
arena. -/
def arenaTrimAt : List (List PNode) → Nat → Nat → TrimMode → List (List PNode)
  | [], _, _, _ => []
  | l :: rest, 0, pos, m => trimNodeAt l pos m :: rest
  | l :: rest, i + 1, pos, m => l :: arenaTrimAt rest i pos m

/-- Port of applyLeftTrimIfNeeded: when the token was consumed and an open
trim marker is present, trim the end of the pre-token text node recorded
by its arena position. -/
def applyLeftTrim (openTrim : Option TrimMode) (pre : Option (Nat × Nat)) (consumed : Bool)
    (st : PState) : PState :=
  if consumed then
    match openTrim, pre with
    | some m, some (lid, pos) =>
        match st with
        | ⟨arena, sids, frames⟩ => ⟨arenaTrimAt arena lid pos m, sids, frames⟩
    | _, _ => st
  else st

/-- One iteration of the tplParse scan: find the next opener, push the
preceding text, and handle the token by kind, degrading to literal text on
every failure path; the continuation receives the advanced scan index and
the new state. -/
def tplParseStep (tpl : List Char) (next : Nat → PState → PState) (idx : Nat)
    (st : PState) : PState :=
  if idx ≥ tpl.length then st
  else
      match findOpenerFrom tpl idx with
      | none => tplPushP st (.text (String.mk (tpl.drop idx)))
      | some (start, kind) =>
          let openTrim := toTrimMode (tpl.get? (start + 2))
          let openLen := 2 + (if openTrim.isSome then 1 else 0)
          match (if start > idx then
                  match st with
                  | ⟨arena, sids, frames⟩ =>
                      let lid := sids.headD 0
                      (PState.mk (arenaAppendAt arena lid (.text (String.mk (sub tpl idx start))))
                        sids frames,
                       some (lid, arenaLenAt arena lid))
                 else (st, none) : PState × Option (Nat × Nat)) with
          | (st1, pre) =>
          match kind with
          | .interp =>
              match indexOfFrom tpl ['\x7d', '\x7d'] (start + openLen) with
              | none => tplPushP st1 (.text (String.mk (tpl.drop start)))
              | some e =>
                  let closeTrim := toTrimMode (tpl.get? (e - 1))
                  let innerEnd := if closeTrim.isSome then e - 1 else e
                  let inner := jsTrimChars (sub tpl (start + openLen) innerEnd)
                  match tplParseInterpInner inner with
                  | some node =>
                      let st2 := applyLeftTrim openTrim pre true st1
                      let st3 := tplPushP st2 node
                      let idx2 :=
                        if closeTrim.isSome then skipWsForwardByMode tpl (e + 2) closeTrim
                        else e + 2
                      next idx2 st3
                  | none =>
                      let st2 := applyLeftTrim openTrim pre false st1
                      let st3 := tplPushP st2 (.text (String.mk (sub tpl start (e + 2))))
                      next (e + 2) st3
          | .comment =>
              match indexOfFrom tpl ['#', '\x7d'] (start + openLen) with
              | none => tplPushP st1 (.text (String.mk (tpl.drop start)))
              | some e =>
                  let closeTrim := toTrimMode (tpl.get? (e - 1))
                  let st2 := applyLeftTrim openTrim pre true st1
                  let idx2 :=
                    if closeTrim.isSome then skipWsForwardByMode tpl (e + 2) closeTrim
                    else e + 2
                  next idx2 st2
          | .control =>
              match indexOfFrom tpl ['%', '\x7d'] (start + openLen) with
              | none => tplPushP st1 (.text (String.mk (tpl.drop start)))
              | some e =>
                  let closeTrim := toTrimMode (tpl.get? (e - 1))
                  let rawEnd := if closeTrim.isSome then e - 1 else e
                  let raw := jsTrimChars (sub tpl (start + openLen) rawEnd)
                  let literal := String.mk (sub tpl start (e + 2))
                  match (match matchKeywordSpace "if" raw with
                    | some expr => (tplParseIfOpen (String.mk expr) st1, false)
                    | none =>
                      match matchKeywordSpace "elseif" raw with
                      | some expr => tplParseElseIf (String.mk expr) literal st1
                      | none =>
                        if eqCI (String.mk raw) "else" then tplParseElse literal st1
                        else if eqCI (String.mk raw) "endif" then tplParseEndIf literal st1
                        else
                          match matchKeywordSpace "each" raw with
                          | some _ => tplParseEach (String.mk raw) literal st1
                          | none =>
                            if eqCI (String.mk raw) "endeach" then tplParseEndEach literal st1
                            else (tplPushP st1 (.text literal), true) : PState × Bool) with
                  | (stD, preserved) =>
                    let st2 := applyLeftTrim openTrim pre (!preserved) stD
                    let idx2 :=
                      if preserved then e + 2
                      else if closeTrim.isSome then skipWsForwardByMode tpl (e + 2) closeTrim
                      else skipOneNewlineAfterControlToken tpl (e + 2)
                    next idx2 st2

/-- Scan loop of tplParse. The fuel bounds the iteration count; the scan
index strictly increases every iteration, so the length-derived budget
cannot run out. The index is taken apart and rebuilt so that each
iteration works with a fully evaluated index (keeping proof-time
evaluation of concrete templates linear instead of re-evaluating an index
thunk chain). -/
def tplParseLoop (tpl : List Char) : Nat → Nat → PState → PState
  | 0, _, st => st
  | fuel + 1, 0, st => tplParseStep tpl (tplParseLoop tpl fuel) 0 st
  | fuel + 1, i + 1, st => tplParseStep tpl (tplParseLoop tpl fuel) (i + 1) st

mutual

/-- Resolve an arena list id to its nested node list. The fuel bounds the
recursion depth; child list ids always point from older lists to younger
ones, so a budget derived from the arena size cannot run out. -/
def resolveList (arena : List (List PNode)) : Nat → Nat → List TplNode
  | 0, _ => []
  | fuel + 1, i => resolveNodes arena fuel (arena.getD i [])

/-- Resolve the nodes of one arena list. -/
def resolveNodes (arena : List (List PNode)) : Nat → List PNode → List TplNode
  | 0, _ => []
  | _ + 1, [] => []
  | fuel + 1, n :: rest => resolvePNode arena fuel n :: resolveNodes arena fuel rest

/-- Resolve one parse-time node, dereferencing its child list ids. -/
def resolvePNode (arena : List (List PNode)) : Nat → PNode → TplNode
  | 0, _ => .text ""
  | _ + 1, .text v => .text v
  | _ + 1, .interp k m c f => .interp k m c f
  | fuel + 1, .ifN d =>
      .ifN d.test (resolveList arena fuel d.consequentId)
        (resolveBranches arena fuel d.elseIfs)
        (match d.alternateId with
         | some a => some (resolveList arena fuel a)
         | none => none)
  | fuel + 1, .eachN d =>
      .eachN d.listExpr d.varName d.indexVarName (resolveList arena fuel d.childrenId)

/-- Resolve the elseif branch list ids of an if node. -/
def resolveBranches (arena : List (List PNode)) : Nat → List (TplIfTest × Nat) →
    List (TplIfTest × List TplNode)
  | 0, _ => []
  | _ + 1, [] => []
  | fuel + 1, (t, bid) :: rest =>
      (t, resolveList arena fuel bid) :: resolveBranches arena fuel rest

end

/-- Port of tplParse: scan the whole template starting from the root state
and read the root list (id zero) out of the final arena. Content left in
lists that never got appended to the root (the consequences of unclosed
blocks) is thereby dropped, as in the source where such lists are only
reachable from the abandoned control frames. -/
def tplParse (s : String) : List TplNode :=
  let tpl := s.data
  match tplParseLoop tpl (tpl.length + 1) 0 ⟨[[]], [0], []⟩ with
  | ⟨arena, _, _⟩ =>
      resolveList arena (arena.foldl (fun a l => a + 2 * l.length) (arena.length + 4)) 0

/-! ## Renderer (tplRenderNodes with tplRenderIfNode and tplRenderEachNode) -/

/-- Filter registry: a mapping from filter name to handler. The source
holds it in a module-wide map populated by registerTemplateFilter;
rendering only reads it, so the embedding passes it explicitly. -/
abbrev TplFilterRegistry := List (String × (JsValue → Option (List TplLit) → JsValue))

/-- Look up a registered handler by name. -/
def regLookup : TplFilterRegistry → String → Option (JsValue → Option (List TplLit) → JsValue)
  | [], _ => none
  | (n, h) :: rest, name => if n = name then some h else regLookup rest name

/-- Port of applyTemplateFilters: run each call whose name is registered,
threading the value left to right; unknown names are skipped with no
effect. -/
def applyTemplateFilters (reg : TplFilterRegistry) : JsValue → List TplFilter → JsValue
  | val, [] => val
  | val, f :: rest =>
      match regLookup reg f.name with
      | none => applyTemplateFilters reg val rest
      | some h => applyTemplateFilters reg (h val f.args) rest

/-- Port of the fallback chain evaluation inside tplRenderNodes: an or link
replaces the current value when it is empty-ish, a nullish link when it is
null or undefined; the replacement is the literal or the resolved key. -/
def applyFallbackChain (scopes : List JsFrame) : JsValue → List TplFallbackLink → JsValue
  | val, [] => val
  | val, fb :: rest =>
      let isEmpty := tplEmptyish val
      let isNullish := match val with
        | .vNull => true
        | .vUndefined => true
        | _ => false
      let val2 :=
        if (fb.op matches .orF) && isEmpty || (fb.op matches .nullish) && isNullish then
          match fb.right with
          | .lit l => l.toVal
          | .key k => tplResolveKey scopes k
        else val
      applyFallbackChain scopes val2 rest

/-- Set a property on an own-property list: overwrite the value in place
when the name exists, append otherwise (object literal update
semantics). -/
def jsSetOwnProp : List (String × Bool × JsValue) → String → JsValue →
    List (String × Bool × JsValue)
  | [], k, v => [(k, false, v)]
  | (n, acc, w) :: rest, k, v =>
      if n = k then (n, false, v) :: rest else (n, acc, w) :: jsSetOwnProp rest k v

/-- Spread of a frame into a fresh object literal: own properties are
copied in order as plain data properties (a getter would be invoked by the
spread at this point; its modelled result is the stored value), and the
prototype is not carried over. -/
def spreadOwn : List (String × Bool × JsValue) → List (String × Bool × JsValue)
  | [] => []
  | (n, _, v) :: rest => (n, false, v) :: spreadOwn rest

mutual

/-- Size of the template AST, used only to bound the render recursion. -/
def tplNodeSize : TplNode → Nat
  | .text _ => 1
  | .interp _ _ _ _ => 1
  | .ifN _ c e a =>
      1 + tplNodesSize c + tplBranchesSize e +
        (match a with
         | some l => 1 + tplNodesSize l
         | none => 1)
  | .eachN _ _ _ ch => 1 + tplNodesSize ch

def tplNodesSize : List TplNode → Nat
  | [] => 1
  | n :: rest => 1 + tplNodeSize n + tplNodesSize rest

def tplBranchesSize : List (TplIfTest × List TplNode) → Nat
  | [] => 1
  | (_, ns) :: rest => 1 + tplNodesSize ns + tplBranchesSize rest

end

mutual

/-- Size of a value, used only to bound the render recursion. -/
def jsValueSize : JsValue → Nat
  | .vArr es => 1 + jsValuesSize es
  | .vObj own _ => 1 + jsOwnSize own
  | _ => 1

def jsValuesSize : List JsValue → Nat
  | [] => 1
  | v :: rest => 1 + jsValueSize v + jsValuesSize rest

def jsOwnSize : List (String × Bool × JsValue) → Nat
  | [] => 1
  | p :: rest => 1 + jsValueSize p.2.2 + jsOwnSize rest

end

/-- Size of a scope stack, used only to bound the render recursion. -/
def scopesSize : List JsFrame → Nat
  | [] => 1
  | f :: rest => 1 + jsOwnSize f.own + scopesSize rest

mutual

/-- Port of the node loop of tplRenderNodes: concatenate the rendering of
each node. The fuel bounds the recursion depth and is sized at the entry
point so that it cannot run out. -/
def renderNodesF (reg : TplFilterRegistry) : Nat → List TplNode → List JsFrame → String
  | 0, _, _ => ""
  | _ + 1, [], _ => ""
  | fuel + 1, n :: rest, scopes =>
      renderNodeF reg fuel n scopes ++ renderNodesF reg fuel rest scopes

/-- Render one node: text verbatim; interpolation through resolution,
fallback chain, filter pipeline, stringification and escaping; if through
the test evaluator; each through the loop renderer. -/
def renderNodeF (reg : TplFilterRegistry) : Nat → TplNode → List JsFrame → String
  | 0, _, _ => ""
  | _ + 1, .text v, _ => v
  | _ + 1, .interp key mode chain filters, scopes =>
      let val1 := applyFallbackChain scopes (tplResolveKey scopes key) chain
      let val2 := if filters.length > 0 then applyTemplateFilters reg val1 filters else val1
      let str := match val2 with
        | .vStr s2 => s2
        | .vUndefined => ""
        | .vNull => ""
        | v => jsToString v
      (match mode with
       | .raw => str
       | .escape => escapeHtml str)
  | fuel + 1, .ifN test consequent elseIfs alternate, scopes =>
      if evalTest scopes test then renderNodesF reg fuel consequent scopes
      else renderElseIfsF reg fuel elseIfs alternate scopes
  | fuel + 1, .eachN listExpr varName indexVarName children, scopes =>
      match tplResolveKey scopes listExpr with
      | .vArr elems => renderEachItemsF reg fuel varName indexVarName children scopes 0 elems
      | .vObj own _ => renderEachEntriesF reg fuel varName children scopes own
      | _ => ""

/-- Port of the branch selection of tplRenderIfNode: render the first
elseif branch whose test holds, else the alternate when present. -/
def renderElseIfsF (reg : TplFilterRegistry) : Nat → List (TplIfTest × List TplNode) →
    Option (List TplNode) → List JsFrame → String
  | 0, _, _, _ => ""
  | fuel + 1, [], alternate, scopes =>
      (match alternate with
       | some l => renderNodesF reg fuel l scopes
       | none => "")
  | fuel + 1, (t, ns) :: rest, alternate, scopes =>
      if evalTest scopes t then renderNodesF reg fuel ns scopes
      else renderElseIfsF reg fuel rest alternate scopes

/-- Port of the array loop of tplRenderEachNode: for each element render
the children with a fresh frame appended to the stack, the frame being a
shallow copy of the innermost frame extended with the loop variable and
the optional zero-based index variable. -/
def renderEachItemsF (reg : TplFilterRegistry) : Nat → String → Option String →
    List TplNode → List JsFrame → Nat → List JsValue → String
  | 0, _, _, _, _, _, _ => ""
  | _ + 1, _, _, _, _, _, [] => ""
  | fuel + 1, varName, indexVarName, children, scopes, i, item :: restItems =>
      let base := (scopes.getLast?).getD ⟨[], []⟩
      let newOwn := jsSetOwnProp (spreadOwn base.own) varName item
      let newOwn2 := match indexVarName with
        | some ix => jsSetOwnProp newOwn ix (.vNum ⟨(i : Int), 0⟩)
        | none => newOwn
      renderNodesF reg fuel children (scopes ++ [⟨newOwn2, []⟩]) ++
        renderEachItemsF reg fuel varName indexVarName children scopes (i + 1) restItems

/-- Port of the object loop of tplRenderEachNode: for each own key render
the children with a fresh frame binding the loop variable to a record of
the key and the value (own properties are iterated in order, modelling
Object.keys on the engine data). -/
def renderEachEntriesF (reg : TplFilterRegistry) : Nat → String → List TplNode →
    List JsFrame → List (String × Bool × JsValue) → String
  | 0, _, _, _, _ => ""
  | _ + 1, _, _, _, [] => ""
  | fuel + 1, varName, children, scopes, (k, _, v) :: restOwn =>
      let entry : JsValue := .vObj [("key", false, .vStr k), ("value", false, v)] []
      let base := (scopes.getLast?).getD ⟨[], []⟩
      let newOwn := jsSetOwnProp (spreadOwn base.own) varName entry
      renderNodesF reg fuel children (scopes ++ [⟨newOwn, []⟩]) ++
        renderEachEntriesF reg fuel varName children scopes restOwn

end

/-- Port of tplRenderNodes: render a node list against the scope stack
(outermost frame first, innermost last). The fuel is generous: the
recursion descends one AST level per step and loops over arrays drawn from
the data, so a product of the AST size and the data size bounds the
depth. -/
def tplRenderNodes (reg : TplFilterRegistry) (nodes : List TplNode)
    (scopes : List JsFrame) : String :=
  renderNodesF reg ((tplNodesSize nodes + 2) * (scopesSize scopes + 2) + 4) nodes scopes

/-- Port of renderTemplate (src/src/index.ts): parse the template and
render the AST with the given data objects as the scope stack. -/
def renderTemplate (reg : TplFilterRegistry) (tpl : String) (data : List JsFrame) : String :=
  tplRenderNodes reg (tplParse tpl) data

/-! ## Predicates used by the claim statements -/

/-- The frame has no own data property under the segment: the segment can
only be supplied through the prototype chain or an own accessor property. -/
def noOwnDataProp (f : JsFrame) (seg : String) : Bool :=
  match lookupOwn f.own seg with
  | some (false, _) => false
  | _ => true

/-- First segment of a dot path, as the resolver splits it. -/
def tplKeyHead (key : String) : String :=
  ((splitChar '.' key.data).map String.mk).headI

/-- Modelled from the spec, amended: the length of the single newline
sequence directly at the index, where a newline sequence is a carriage
return and newline pair, a lone carriage return, or a newline (the spec
names only the pair and the bare newline; the lone carriage return is the
amendment the code forces). -/
def specNewlineSeqLen (tpl : List Char) (i : Nat) : Nat :=
  match tpl.get? i, tpl.get? (i + 1) with
  | some '\r', some '\n' => 2
  | some '\r', _ => 1
  | some '\n', _ => 1
  | _, _ => 0

/-! ## Helper lemmas -/

theorem splitChar_ne_nil (sep : Char) (cs : List Char) : splitChar sep cs ≠ [] := by
  induction cs with
  | nil => simp [splitChar]
  | cons c rest ih =>
      simp only [splitChar]
      split
      · simp
      · cases h : splitChar sep rest <;> simp_all

theorem tplResolveKeyLoop_none (seg : String) (rest : List String) :
    ∀ fs : List JsFrame, (∀ f ∈ fs, noOwnDataProp f seg = true) →
      tplResolveKeyLoop fs seg rest = none := by
  intro fs
  induction fs with
  | nil => intro _; rfl
  | cons f outer ih =>
      intro h
      have hf : noOwnDataProp f seg = true := h f (by simp)
      have houter : ∀ g ∈ outer, noOwnDataProp g seg = true := by
        intro g hg; exact h g (by simp [hg])
      simp only [tplResolveKeyLoop]
      unfold noOwnDataProp at hf
      cases hl : lookupOwn f.own seg with
      | none => simp [hl, ih houter]
      | some p =>
          cases p with
          | mk acc v =>
              cases acc with
              | false => rw [hl] at hf; simp at hf
              | true => simp [hl, ih houter]

theorem tplResolveKey_vUndefined (scopes : List JsFrame) (key : String)
    (h : ∀ f ∈ scopes, noOwnDataProp f (tplKeyHead key) = true) :
    tplResolveKey scopes key = .vUndefined := by
  have hrev : ∀ f ∈ scopes.reverse, noOwnDataProp f (tplKeyHead key) = true := by
    intro f hf; exact h f (List.mem_reverse.mp hf)
  have hloop := tplResolveKeyLoop_none (tplKeyHead key)
    (((splitChar '.' key.data).map String.mk).tail) scopes.reverse hrev
  have hne : ((splitChar '.' key.data).map String.mk) ≠ [] := by
    intro hcon
    exact splitChar_ne_nil '.' key.data (List.map_eq_nil_iff.mp hcon)
  obtain ⟨p0, ptail, hp⟩ : ∃ a l, ((splitChar '.' key.data).map String.mk) = a :: l := by
    cases hc : (splitChar '.' key.data).map String.mk with
    | nil => exact absurd hc hne
    | cons a l => exact ⟨a, l, rfl⟩
  have hp0 : tplKeyHead key = p0 := by simp [tplKeyHead, hp]
  simp only [tplResolveKey, tplKeyHead] at hloop ⊢
  rw [hloop]
  cases scopes with
  | nil => rw [hp]; rfl
  | cons f fs =>
      rw [hp]
      have hf : noOwnDataProp f (tplKeyHead key) = true := h f (by simp)
      rw [hp0] at hf
      unfold noOwnDataProp at hf
      simp only [tplResolveFrom, JsFrame.toVal]
      cases hl : lookupOwn f.own p0 with
      | none => simp [hl]
      | some p =>
          cases p with
          | mk acc v =>
              cases acc with
              | false => rw [hl] at hf; simp at hf
              | true => simp [hl]

theorem string_append_empty (s : String) : s ++ "" = s := by
  cases s with
  | mk l => show String.mk (l ++ []) = String.mk l; rw [List.append_nil]

theorem renderNodeF_interp_undef (reg : TplFilterRegistry) (key : String) (mode : TplMode)
    (scopes : List JsFrame) (fuel : Nat) (h : tplResolveKey scopes key = .vUndefined) :
    renderNodeF reg (fuel + 1) (.interp key mode [] []) scopes = "" := by
  simp only [renderNodeF, applyFallbackChain, h]
  cases mode <;> rfl

theorem tplRenderNodes_interp_undef (reg : TplFilterRegistry) (key : String) (mode : TplMode)
    (scopes : List JsFrame) (h : tplResolveKey scopes key = .vUndefined) :
    tplRenderNodes reg [.interp key mode [] []] scopes = "" := by
  show renderNodesF reg _ [.interp key mode [] []] scopes = ""
  rw [show (tplNodesSize [TplNode.interp key mode [] []] + 2) *
      (scopesSize scopes + 2) + 4 =
      ((tplNodesSize [TplNode.interp key mode [] []] + 2) *
      (scopesSize scopes + 2) + 3) + 1 from rfl]
  rw [show ∀ m, renderNodesF reg (m + 1) [TplNode.interp key mode [] []] scopes =
      renderNodeF reg m (.interp key mode [] []) scopes ++ renderNodesF reg m [] scopes
    from fun m => rfl]
  cases hm : (tplNodesSize [TplNode.interp key mode [] []] + 2) *
      (scopesSize scopes + 2) + 3 with
  | zero => simp at hm
  | succ m =>
      rw [renderNodeF_interp_undef reg key mode scopes m h]
      cases m with
      | zero => rfl
      | succ m2 => rfl

/-! ## Claim C1 -/

/-- C1: for every scope stack and every dot path whose first segment is
supplied in every frame only by the prototype chain or by a property
accessor (no frame has an own data property under the first segment), the
scope resolver (tplResolveKey over tplResolveFrom) returns absent
(undefined), and rendering an interpolation of that key produces the empty
string (after escaping; the raw mode gives the same empty output). The
accessor is never invoked: the statement holds for every accessor payload
(the value a getter would produce) and every prototype content, and the
embedded tplResolveFrom and tplResolveKey by construction never read
either. -/
theorem c1_resolver_skips_proto_and_accessors
    (scopes : List JsFrame) (key : String) (mode : TplMode) (reg : TplFilterRegistry)
    (h : ∀ f ∈ scopes, noOwnDataProp f (tplKeyHead key) = true) :
    tplResolveKey scopes key = .vUndefined ∧
    tplRenderNodes reg [.interp key mode [] []] scopes = "" := by
  have hres := tplResolveKey_vUndefined scopes key h
  exact ⟨hres, tplRenderNodes_interp_undef reg key mode scopes hres⟩

/-- Witness for C1 at a concrete adversarial stack: the root frame
supplies x only through the prototype chain, the inner frame backs x by an
accessor with payload SECRET; resolution of x.y is absent and rendering
yields the empty string. -/
theorem c1_witness :
    (∀ f ∈ ([⟨[], [("x", .vStr "P")]⟩, ⟨[("x", true, .vStr "SECRET")], []⟩] : List JsFrame),
        noOwnDataProp f (tplKeyHead "x.y") = true) ∧
    tplResolveKey [⟨[], [("x", .vStr "P")]⟩, ⟨[("x", true, .vStr "SECRET")], []⟩] "x.y" =
      .vUndefined ∧
    tplRenderNodes [] [.interp "x.y" .escape [] []]
      [⟨[], [("x", .vStr "P")]⟩, ⟨[("x", true, .vStr "SECRET")], []⟩] = "" := by
  have h : ∀ f ∈ ([⟨[], [("x", .vStr "P")]⟩,
      ⟨[("x", true, .vStr "SECRET")], []⟩] : List JsFrame),
      noOwnDataProp f (tplKeyHead "x.y") = true := by decide
  have hc := c1_resolver_skips_proto_and_accessors
    [⟨[], [("x", .vStr "P")]⟩, ⟨[("x", true, .vStr "SECRET")], []⟩] "x.y" .escape [] h
  exact ⟨h, hc.1, hc.2⟩

/-! ## Claim C2 -/

theorem tplRenderNodes_single_text (reg : TplFilterRegistry) (v : String)
    (scopes : List JsFrame) : tplRenderNodes reg [.text v] scopes = v := by
  show renderNodesF reg _ [.text v] scopes = v
  rw [show (tplNodesSize [TplNode.text v] + 2) * (scopesSize scopes + 2) + 4 =
      ((tplNodesSize [TplNode.text v] + 2) * (scopesSize scopes + 2) + 3) + 1 from rfl]
  rw [show ∀ m, renderNodesF reg (m + 1) [TplNode.text v] scopes =
      renderNodeF reg m (.text v) scopes ++ renderNodesF reg m [] scopes from fun m => rfl]
  cases hm : (tplNodesSize [TplNode.text v] + 2) * (scopesSize scopes + 2) + 3 with
  | zero => simp at hm
  | succ m =>
      rw [show renderNodeF reg (Nat.succ m) (.text v) scopes = v from rfl,
        show renderNodesF reg (Nat.succ m) ([] : List TplNode) scopes = "" from rfl]
      exact string_append_empty v

/-- C2: rendering the function-call shaped interpolation against any data
(and any filter registry) yields exactly the literal token text: the
expression segment fails the identifier and dot-path grammar, so tplParse
preserves the whole token as a text node. The last conjunct states the
grammar rejection in general: the interpolation body parser returns none
(literal preservation) for every expression whose whole text and whose
fallback-split parts all fail tplIsIdentifier. Function values are not
representable in the data model and the parser never produces a call node,
so no data-supplied function can be invoked during parsing or rendering. -/
theorem c2_no_code_execution :
    tplParse "\x7b\x7b fn() \x7d\x7d" = [.text "\x7b\x7b fn() \x7d\x7d"] ∧
    (∀ (reg : TplFilterRegistry) (data : List JsFrame),
      renderTemplate reg "\x7b\x7b fn() \x7d\x7d" data = "\x7b\x7b fn() \x7d\x7d") ∧
    (∀ (mode : TplMode) (expr : List Char) (filtersSeg : Option (List Char)),
      tplIsIdentifier (String.mk expr) = false →
      (fallbackSplit (expr.length + 1) none [] [] [] expr).1.all
        (fun p => !tplIsIdentifier p) = true →
      tplParseInterpCore mode expr filtersSeg = none) := by
  refine ⟨rfl, ?_, ?_⟩
  · intro reg data
    show tplRenderNodes reg (tplParse _) data = _
    rw [show tplParse "\x7b\x7b fn() \x7d\x7d" = [.text "\x7b\x7b fn() \x7d\x7d"] from rfl]
    exact tplRenderNodes_single_text reg _ data
  · intro mode expr filtersSeg hexpr hparts
    unfold tplParseInterpCore
    cases hsp : fallbackSplit (expr.length + 1) none [] [] [] expr with
    | mk parts ops =>
        rw [hsp] at hparts
        cases parts with
        | nil => simp [hexpr]
        | cons p0 rest =>
            simp only [List.all_cons, Bool.and_eq_true, Bool.not_eq_true'] at hparts
            simp [hparts.1, hexpr]

/-- Witness for C2 at the concrete expression text: fn() fails the
identifier grammar and the interpolation body parser rejects it. -/
theorem c2_witness :
    tplIsIdentifier (String.mk "fn()".data) = false ∧
    (fallbackSplit ("fn()".data.length + 1) none [] [] [] "fn()".data).1.all
      (fun p => !tplIsIdentifier p) = true ∧
    tplParseInterpCore .escape "fn()".data none = none := by
  have h1 : tplIsIdentifier (String.mk "fn()".data) = false := by decide
  have h2 : (fallbackSplit ("fn()".data.length + 1) none [] [] [] "fn()".data).1.all
      (fun p => !tplIsIdentifier p) = true := by decide
  exact ⟨h1, h2, c2_no_code_execution.2.2 .escape "fn()".data none h1 h2⟩

/-! ## Claim C3 -/

/-- C3 counterexample: the template opens an if block that is never
closed; the claim demands that the text token hello, already emitted
inside the open block, degrades to a text node in the returned AST. The
parser instead returns the empty node list: the consequent list holding
hello is only reachable from the abandoned control frame, so the content
is silently dropped, refuting the second half of the claim at this
input. -/
theorem c3_counterexample :
    tplParse "\x7b% if x %\x7dhello" = [] ∧
    TplNode.text "hello" ∉ tplParse "\x7b% if x %\x7dhello" := by
  have h : tplParse "\x7b% if x %\x7dhello" = [] := rfl
  exact ⟨h, by rw [h]; exact List.not_mem_nil _⟩

/-- C3 amended: for a template with an opened but never closed if or each
block, the node list returned by parse contains no conditional or loop
node for the open block, and the tokens already emitted inside the block
are silently dropped from the returned AST and from the rendered output
(they stay in a detached child list); parsing continues without raising
and the text preceding the open block is preserved. -/
theorem c3_amended_unclosed_blocks_drop_content :
    tplParse "\x7b% if x %\x7dhello" = [] ∧
    tplParse "A\x7b% if x %\x7dhello" = [.text "A"] ∧
    tplParse "\x7b% each xs as x %\x7dhi\x7b\x7b y \x7d\x7d" = [] ∧
    renderTemplate [] "A\x7b% if x %\x7dhello" [dataFrame [("x", .vNum 1)]] = "A" :=
  ⟨rfl, rfl, rfl, rfl⟩

/-! ## Claim C4 -/

/-- C4 counterexample: the test grammar produces no node for the hash
characters, so tplParseTest returns the default negated empty-key truthy
test, as the claim states; but evaluating that default against the plain
one-frame scope stack yields true, not false, and the guarded branch
renders: the if template with an unparsable test prints its consequent. -/
theorem c4_counterexample :
    tplParseTest "###" = tplDefaultTest ∧
    evalTest [dataFrame []] tplDefaultTest = true ∧
    renderTemplate [] "\x7b% if ### %\x7dSECRET\x7b% endif %\x7d" [dataFrame []] = "SECRET" :=
  ⟨rfl, rfl, rfl⟩

/-- C4 amended: tplParseTest is total by construction and yields the
negated empty-key truthy test whenever the descent produces no node (for
example on the empty string or on unrecognized characters); evaluating
that default equals the negation of the truthiness of resolving the empty
key, which is true — the guarded branch renders — for every scope stack
in which no frame has an own data property under the empty-string key
(in particular for ordinary data objects). -/
theorem c4_amended_default_test :
    (∀ s : String,
      (parseOrT (10 * (testTokenize (jsTrimChars s.data)).length + 10)
        (testTokenize (jsTrimChars s.data))).1 = none →
      tplParseTest s = tplDefaultTest) ∧
    tplParseTest "" = tplDefaultTest ∧
    tplParseTest "###" = tplDefaultTest ∧
    (∀ scopes : List JsFrame,
      evalTest scopes tplDefaultTest = !tplTruthy (tplResolveKey scopes "")) ∧
    (∀ scopes : List JsFrame, (∀ f ∈ scopes, noOwnDataProp f (tplKeyHead "") = true) →
      evalTest scopes tplDefaultTest = true) := by
  refine ⟨?_, rfl, rfl, ?_, ?_⟩
  · intro s h
    simp only [tplParseTest]
    rw [h]
  · intro scopes
    rfl
  · intro scopes h
    have hres := tplResolveKey_vUndefined scopes "" h
    show evalTest scopes tplDefaultTest = true
    simp [tplDefaultTest, evalTest, hres, tplTruthy]

/-- Witness for C4 at concrete inputs: the hash string parses to no node
and yields the default, and the default evaluates true against a plain
data frame. -/
theorem c4_witness :
    ((parseOrT (10 * (testTokenize (jsTrimChars "###".data)).length + 10)
        (testTokenize (jsTrimChars "###".data))).1 = none ∧
      tplParseTest "###" = tplDefaultTest) ∧
    ((∀ f ∈ ([dataFrame [("a", .vNum 1)]] : List JsFrame),
        noOwnDataProp f (tplKeyHead "") = true) ∧
      evalTest [dataFrame [("a", .vNum 1)]] tplDefaultTest = true) := by
  have h1 : (parseOrT (10 * (testTokenize (jsTrimChars "###".data)).length + 10)
      (testTokenize (jsTrimChars "###".data))).1 = none := rfl
  have h2 : ∀ f ∈ ([dataFrame [("a", .vNum 1)]] : List JsFrame),
      noOwnDataProp f (tplKeyHead "") = true := by decide
  exact ⟨⟨h1, c4_amended_default_test.1 "###" h1⟩,
    ⟨h2, c4_amended_default_test.2.2.2.2 [dataFrame [("a", .vNum 1)]] h2⟩⟩

/-! ## Claim C5 -/

/-- C5 counterexample: an endif token scanned while the innermost open
frame is a loop. The claim says the open-frame state is left unchanged and
the enclosing each block is still closed by its own endeach and appears in
the AST; instead the parser discards the each frame, the block never
reaches the AST (the parse result is empty), and rendering produces
nothing. -/
theorem c5_counterexample :
    tplParse "\x7b% each items as x %\x7dA\x7b% endif %\x7dB\x7b% endeach %\x7d" = [] ∧
    renderTemplate [] "\x7b% each items as x %\x7dA\x7b% endif %\x7dB\x7b% endeach %\x7d"
      [dataFrame [("items", .vArr [.vNum 1])]] = "" :=
  ⟨rfl, rfl⟩

/-- C5 amended: on a kind mismatch the close handlers do emit the literal
token text as a text node into the current top list and leave the
node-list stack unchanged, but they pop the innermost open frame rather
than leaving the frame state unchanged, so the enclosing block loses its
frame, is never appended to the AST, and its own later close token
degrades to text as well. -/
theorem c5_amended_mismatched_close_pops_frame :
    (∀ (literal : String) (st : PState) (d : PEachData) (pid : Nat),
      st.frames.head? = some (.eachF d pid) →
      (tplParseEndIf literal st).1.frames = st.frames.tail ∧
      (tplParseEndIf literal st).1.stackIds = st.stackIds ∧
      (tplParseEndIf literal st).1.arena =
        arenaAppendAt st.arena (st.stackIds.headD 0) (.text literal) ∧
      (tplParseEndIf literal st).2 = true) ∧
    (∀ (literal : String) (st : PState) (d : PIfData) (pid : Nat) (ia : Bool),
      st.frames.head? = some (.ifF d pid ia) →
      (tplParseEndEach literal st).1.frames = st.frames.tail ∧
      (tplParseEndEach literal st).1.stackIds = st.stackIds ∧
      (tplParseEndEach literal st).1.arena =
        arenaAppendAt st.arena (st.stackIds.headD 0) (.text literal) ∧
      (tplParseEndEach literal st).2 = true) ∧
    tplParse "\x7b% each items as x %\x7dA\x7b% endif %\x7dB\x7b% endeach %\x7d" = [] := by
  refine ⟨?_, ?_, rfl⟩
  · intro literal st d pid h
    obtain ⟨arena, sids, frames⟩ := st
    cases frames with
    | nil => simp at h
    | cons fr rest =>
        simp only [List.head?_cons, Option.some.injEq] at h
        subst h
        exact ⟨rfl, rfl, rfl, rfl⟩
  · intro literal st d pid ia h
    obtain ⟨arena, sids, frames⟩ := st
    cases frames with
    | nil => simp at h
    | cons fr rest =>
        simp only [List.head?_cons, Option.some.injEq] at h
        subst h
        exact ⟨rfl, rfl, rfl, rfl⟩

/-! ## Claim C6 -/

/-- C6: a single-link fallback application replaces the value under an or
link exactly when the value is emptyish, and under a nullish link exactly
when the value is null or undefined; emptyish is characterized as
undefined, null, empty string, empty array, or empty record, with number
zero and boolean false not emptyish; concretely the or template keeps 0
and false but replaces empty string, array and record, and the nullish
template replaces only null and absent. -/
theorem c6_fallback_semantics :
    (∀ (scopes : List JsFrame) (val : JsValue) (r : TplExpr),
      (tplEmptyish val = true →
        applyFallbackChain scopes val [⟨.orF, r⟩] = resolveExpr scopes r) ∧
      (tplEmptyish val = false →
        applyFallbackChain scopes val [⟨.orF, r⟩] = val) ∧
      (val = .vNull ∨ val = .vUndefined →
        applyFallbackChain scopes val [⟨.nullish, r⟩] = resolveExpr scopes r) ∧
      (val ≠ .vNull → val ≠ .vUndefined →
        applyFallbackChain scopes val [⟨.nullish, r⟩] = val)) ∧
    (∀ v : JsValue, tplEmptyish v = true ↔
      (v = .vUndefined ∨ v = .vNull ∨ v = .vStr "" ∨ v = .vArr [] ∨
        ∃ proto, v = .vObj [] proto)) ∧
    (tplEmptyish (.vNum 0) = false ∧ tplEmptyish (.vBool false) = false) ∧
    (renderTemplate [] "\x7b\x7b v || \x27d\x27 \x7d\x7d" [dataFrame [("v", .vNum 0)]]
        = "0" ∧
      renderTemplate [] "\x7b\x7b v || \x27d\x27 \x7d\x7d" [dataFrame [("v", .vBool false)]]
        = "false" ∧
      renderTemplate [] "\x7b\x7b v || \x27d\x27 \x7d\x7d" [dataFrame [("v", .vStr "")]]
        = "d" ∧
      renderTemplate [] "\x7b\x7b v || \x27d\x27 \x7d\x7d" [dataFrame [("v", .vArr [])]]
        = "d" ∧
      renderTemplate [] "\x7b\x7b v || \x27d\x27 \x7d\x7d" [dataFrame [("v", .vObj [] [])]]
        = "d" ∧
      renderTemplate [] "\x7b\x7b v ?? \x27d\x27 \x7d\x7d" [dataFrame [("v", .vNull)]]
        = "d" ∧
      renderTemplate [] "\x7b\x7b v ?? \x27d\x27 \x7d\x7d" [dataFrame []]
        = "d" ∧
      renderTemplate [] "\x7b\x7b v ?? \x27d\x27 \x7d\x7d" [dataFrame [("v", .vStr "")]]
        = "") := by
  refine ⟨?_, ?_, ⟨rfl, rfl⟩, rfl, rfl, rfl, rfl, rfl, rfl, rfl, rfl⟩
  · intro scopes val r
    refine ⟨?_, ?_, ?_, ?_⟩
    · intro h
      cases r <;> simp [applyFallbackChain, resolveExpr, h]
    · intro h
      cases r <;> simp [applyFallbackChain, resolveExpr, h]
    · rintro (rfl | rfl) <;> cases r <;>
        simp [applyFallbackChain, resolveExpr, tplEmptyish]
    · intro h1 h2
      cases val <;> first
        | exact absurd rfl h1
        | exact absurd rfl h2
        | (cases r <;> simp [applyFallbackChain, tplEmptyish])
  · intro v
    cases v <;> simp [tplEmptyish, List.isEmpty_iff]

/-- Witness for C6 at concrete values: empty string is replaced by an or
link, zero is kept by an or link, null is replaced by a nullish link, and
empty string is kept by a nullish link. -/
theorem c6_witness :
    (tplEmptyish (.vStr "") = true ∧
      applyFallbackChain [] (.vStr "") [⟨.orF, .lit (.str "d")⟩]
        = resolveExpr [] (.lit (.str "d"))) ∧
    (tplEmptyish (.vNum 0) = false ∧
      applyFallbackChain [] (.vNum 0) [⟨.orF, .lit (.str "d")⟩] = .vNum 0) ∧
    applyFallbackChain [] .vNull [⟨.nullish, .lit (.str "d")⟩]
      = resolveExpr [] (.lit (.str "d")) ∧
    applyFallbackChain [] (.vStr "") [⟨.nullish, .lit (.str "d")⟩] = .vStr "" := by
  have h1 : tplEmptyish (JsValue.vStr "") = true := rfl
  have h2 : tplEmptyish (JsValue.vNum 0) = false := rfl
  refine ⟨⟨h1, (c6_fallback_semantics.1 [] (.vStr "") (.lit (.str "d"))).1 h1⟩,
    ⟨h2, (c6_fallback_semantics.1 [] (.vNum 0) (.lit (.str "d"))).2.1 h2⟩,
    (c6_fallback_semantics.1 [] .vNull (.lit (.str "d"))).2.2.1 (Or.inl rfl),
    (c6_fallback_semantics.1 [] (.vStr "") (.lit (.str "d"))).2.2.2
      (fun h => JsValue.noConfusion h) (fun h => JsValue.noConfusion h)⟩

/-! ## Claim C7 -/

/-- The fallback-chain builder returns the empty chain as soon as any
right-hand token fails to parse, discarding links already accumulated. -/
theorem buildFallbackChain_clears_on_failure :
    ∀ (rs : List String) (ops : List FbOp) (acc : List TplFallbackLink),
      (∃ r ∈ rs, tplParseRight r.data = none) →
      buildFallbackChain ops rs acc = [] := by
  intro rs
  induction rs with
  | nil =>
      rintro ops acc ⟨r, hr, _⟩
      cases hr
  | cons q rest ih =>
      rintro ops acc ⟨r, hr, hfail⟩
      rcases List.mem_cons.mp hr with h | h
      · subst h
        unfold buildFallbackChain
        rw [hfail]
      · cases hq : tplParseRight q.data with
        | none =>
            unfold buildFallbackChain
            rw [hq]
        | some right =>
            unfold buildFallbackChain
            rw [hq]
            exact ih ops.tail _ ⟨r, h, hfail⟩

/-- C7: if any right-hand token of a fallback chain fails to parse, the
whole chain — earlier well-formed links included — is discarded, while
the base-key interpolation still parses without fallbacks and renders;
concretely the chain with a well-formed first link and an unparsable
second token parses to an interp node with an empty chain, and renders the
empty base value rather than the fallback that a skip-just-the-bad-link
reading would produce. -/
theorem c7_bad_fallback_link_clears_chain :
    (∀ (rs : List String) (ops : List FbOp) (acc : List TplFallbackLink),
      (∃ r ∈ rs, tplParseRight r.data = none) →
      buildFallbackChain ops rs acc = []) ∧
    tplParse "\x7b\x7b a || \x27x\x27 || 1x \x7d\x7d" = [.interp "a" .escape [] []] ∧
    renderTemplate [] "\x7b\x7b a || \x27x\x27 || 1x \x7d\x7d" [dataFrame [("a", .vStr "")]]
      = "" ∧
    renderTemplate [] "\x7b\x7b a || \x27x\x27 \x7d\x7d" [dataFrame [("a", .vStr "")]]
      = "x" :=
  ⟨buildFallbackChain_clears_on_failure, rfl, rfl, rfl⟩

/-- Witness for C7 at a concrete chain: the second token 1x is not a
literal or identifier, and the built chain is empty despite the
well-formed first link. -/
theorem c7_witness :
    (∃ r ∈ ["\x27x\x27", "1x"], tplParseRight r.data = none) ∧
    buildFallbackChain [.orF, .orF] ["\x27x\x27", "1x"] [] = [] := by
  have h : ∃ r ∈ ["\x27x\x27", "1x"], tplParseRight r.data = none :=
    ⟨"1x", by decide, rfl⟩
  exact ⟨h, c7_bad_fallback_link_clears_chain.1 ["\x27x\x27", "1x"] [.orF, .orF] [] h⟩

/-- Witness for C5 at a concrete state: an each frame on top, closed by
endif: the frame is popped and the literal lands in the top list. -/
theorem c5_witness :
    (PState.frames ⟨[[]], [0], [.eachF ⟨"xs", "x", none, 1⟩ 0]⟩).head? =
      some (.eachF ⟨"xs", "x", none, 1⟩ 0) ∧
    (tplParseEndIf "\x7b% endif %\x7d" ⟨[[]], [0], [.eachF ⟨"xs", "x", none, 1⟩ 0]⟩).1.frames =
      [] ∧
    (tplParseEndIf "\x7b% endif %\x7d" ⟨[[]], [0], [.eachF ⟨"xs", "x", none, 1⟩ 0]⟩).2 =
      true := by
  have h : (PState.frames ⟨[[]], [0], [.eachF ⟨"xs", "x", none, 1⟩ 0]⟩).head? =
      some (.eachF ⟨"xs", "x", none, 1⟩ 0) := rfl
  have hc := c5_amended_mismatched_close_pops_frame.1 "\x7b% endif %\x7d"
    ⟨[[]], [0], [.eachF ⟨"xs", "x", none, 1⟩ 0]⟩ ⟨"xs", "x", none, 1⟩ 0 h
  exact ⟨h, hc.1, hc.2.2.2⟩

/-! ## Claim C8 -/

/-- C8 counterexample: a lone carriage return (not part of an \r\n pair
and not a bare \n) immediately after the closer of a successfully parsed
control token is also consumed: the skip helper advances one position over
it, and the rendered output drops the \r that the claim — which names only
the sequences \r\n and \n — predicts preserved. -/
theorem c8_counterexample :
    renderTemplate [] "\x7b% if x %\x7d\rA\x7b% endif %\x7d" [dataFrame [("x", .vNum 1)]]
      = "A" ∧
    skipOneNewlineAfterControlToken (List.cons '\r' ['A']) 0 = 1 ∧
    (List.cons '\r' ['A']).get? 0 = some '\r' ∧
    (List.cons '\r' ['A']).get? 1 = some 'A' :=
  ⟨rfl, rfl, rfl, rfl⟩

/-- C8 amended: the implicit consumption after an unmarked, successfully
parsed control token eats exactly one newline sequence where the
sequences are \r\n, \n, and also a lone \r (the skip helper equals the
index plus the length of that extended newline sequence); an explicit
trim marker on the closer disables it, and interpolation tokens, comment
tokens and control tokens degraded to literal text never perform it. The
concrete renders exhibit each part, including that only one of two
consecutive newlines is eaten. -/
theorem c8_amended_newline_consumption :
    (∀ (tpl : List Char) (i : Nat),
      skipOneNewlineAfterControlToken tpl i = i + specNewlineSeqLen tpl i) ∧
    renderTemplate [] "\x7b% if a %\x7d\nA\n\x7b% endif %\x7d\nB"
      [dataFrame [("a", .vNum 1)]] = "A\nB" ∧
    renderTemplate [] "\x7b% if a %\x7d\r\nA\r\n\x7b% endif %\x7d\r\nB"
      [dataFrame [("a", .vNum 1)]] = "A\r\nB" ∧
    renderTemplate [] "\x7b% if a %\x7d\n\nA\x7b% endif %\x7d"
      [dataFrame [("a", .vNum 1)]] = "\nA" ∧
    renderTemplate [] "\x7b% if x %\x7d\rA\x7b% endif %\x7d"
      [dataFrame [("x", .vNum 1)]] = "A" ∧
    renderTemplate [] "\x7b% if x ~%\x7d \nA\x7b% endif %\x7d"
      [dataFrame [("x", .vNum 1)]] = "\nA" ∧
    renderTemplate [] "\x7b\x7b x \x7d\x7d\nY" [dataFrame [("x", .vStr "1")]] = "1\nY" ∧
    renderTemplate [] "\x7b# c #\x7d\nY" [dataFrame []] = "\nY" ∧
    renderTemplate [] "\x7b% bogus %\x7d\nY" [dataFrame []] = "\x7b% bogus %\x7d\nY" := by
  refine ⟨?_, rfl, rfl, rfl, rfl, rfl, rfl, rfl, rfl⟩
  intro tpl i
  unfold skipOneNewlineAfterControlToken specNewlineSeqLen
  repeat' split
  all_goals simp_all

/-! ## Claim C9 -/

/-- C9: when the primary on the left of a comparison operator is not a
primary-level truthy or literal node (leftExprOf returns none, as for any
parenthesized sub-expression), the compare parser consumes the operator
and its right operand but returns the grouped sub-expression itself, with
no comparison applied; concretely the grouped-and test parses to the bare
conjunction, whose evaluation ignores the impossible comparison with 5. -/
theorem c9_grouped_not_comparable :
    tplParseTest "(a && b) > 5" = .andN [.truthy "a" false, .truthy "b" false] ∧
    evalTest [dataFrame [("a", .vNum 1), ("b", .vNum 1)]]
      (tplParseTest "(a && b) > 5") = true ∧
    (∀ (fuel : Nat) (toks rest2 rest3 : List TestTok) (e : TplIfTest)
        (op : TplCompareOp) (rOp : TplExpr),
      parsePrimaryBase fuel toks = (some e, .comp op :: rest2) →
      leftExprOf e = none →
      parseOperandTok rest2 = (some rOp, rest3) →
      parseCompareT (fuel + 1) toks = (some e, rest3)) := by
  refine ⟨rfl, rfl, ?_⟩
  intro fuel toks rest2 rest3 e op rOp h1 h2 h3
  simp only [parseCompareT, h1, h3, h2]

/-- Witness for C9 at the token list of the grouped template: the primary
is the conjunction, not convertible to a comparison operand, and the
compare parser returns it with the greater-than operator and the literal
5 consumed. -/
theorem c9_witness :
    parsePrimaryBase 20 [.lparen, .key "a", .andT, .key "b", .rparen,
        .comp .gt, .lit (.num 5)] =
      (some (.andN [.truthy "a" false, .truthy "b" false]), [.comp .gt, .lit (.num 5)]) ∧
    leftExprOf (.andN [.truthy "a" false, .truthy "b" false]) = none ∧
    parseOperandTok [.lit (.num 5)] = (some (.lit (.num 5)), []) ∧
    parseCompareT 21 [.lparen, .key "a", .andT, .key "b", .rparen,
        .comp .gt, .lit (.num 5)] =
      (some (.andN [.truthy "a" false, .truthy "b" false]), []) := by
  have h1 : parsePrimaryBase 20 [.lparen, .key "a", .andT, .key "b", .rparen,
      .comp .gt, .lit (.num 5)] =
      (some (.andN [.truthy "a" false, .truthy "b" false]),
        [.comp .gt, .lit (.num 5)]) := rfl
  have h2 : leftExprOf (.andN [.truthy "a" false, .truthy "b" false]) = none := rfl
  have h3 : parseOperandTok [TestTok.lit (.num 5)] = (some (.lit (.num 5)), []) := rfl
  exact ⟨h1, h2, h3, c9_grouped_not_comparable.2.2 20 _ _ _ _ .gt _ h1 h2 h3⟩

/-! ## Claim C10 -/

/-- Setting a property on the shallow copy of a frame makes it the found
own data property under that key. -/
theorem lookupOwn_setOwnProp_self (l : List (String × Bool × JsValue))
    (k : String) (v : JsValue) :
    lookupOwn (jsSetOwnProp l k v) k = some (false, v) := by
  induction l with
  | nil => simp [jsSetOwnProp, lookupOwn]
  | cons p rest ih =>
      obtain ⟨n, acc, w⟩ := p
      by_cases h : n = k
      · subst h
        simp [jsSetOwnProp, lookupOwn]
      · simp [jsSetOwnProp, lookupOwn, h, ih]

/-- C10: each loop iteration renders against the caller's scope stack
extended with a fresh frame — a shallow copy of the innermost frame with
the loop (and optional index) variable set — appended to a new stack, so
inside the body the loop variable resolves to the current item by
shadowing, while the original stack object passed to render is reused
unchanged for the sibling nodes after the loop: the loop variable is not
visible there and an outer binding of the same name reappears. Data values
are immutable in the embedding, mirroring that the source only builds new
objects and arrays and never assigns into the frames or items it was
given. -/
theorem c10_loop_scoping_pure :
    (∀ (scopes : List JsFrame) (base : List (String × Bool × JsValue))
        (varName : String) (item : JsValue),
      splitChar '.' varName.data = [varName.data] →
      tplResolveKey (scopes ++ [⟨jsSetOwnProp (spreadOwn base) varName item, []⟩])
        varName = item) ∧
    renderTemplate []
      "A=\x7b\x7b it \x7d\x7d|\x7b% each items as it %\x7d(\x7b\x7b it \x7d\x7d)\x7b% endeach %\x7d|B=\x7b\x7b it \x7d\x7d"
      [dataFrame [("it", .vStr "OUT"),
        ("items", .vArr [.vStr "IN1", .vStr "IN2"])]]
      = "A=OUT|(IN1)(IN2)|B=OUT" ∧
    renderTemplate []
      "\x7b% each items as x, i %\x7d(\x7b\x7b i \x7d\x7d:\x7b\x7b x \x7d\x7d)\x7b% endeach %\x7dpost=\x7b\x7b i \x7d\x7d"
      [dataFrame [("items", .vArr [.vStr "IN1", .vStr "IN2"])]]
      = "(0:IN1)(1:IN2)post=" := by
  refine ⟨?_, rfl, rfl⟩
  intro scopes base varName item h
  obtain ⟨cs⟩ := varName
  simp only [tplResolveKey, h, List.map_cons, List.map_nil, List.headI, List.tail,
    List.reverse_append, List.reverse_singleton, List.singleton_append]
  simp only [tplResolveKeyLoop, lookupOwn_setOwnProp_self]
  cases item <;> rfl

/-- Witness for C10 at a concrete extension: the loop frame shadows the
outer binding of the variable while it is on the stack. -/
theorem c10_witness :
    splitChar '.' "it".data = ["it".data] ∧
    tplResolveKey
      ([dataFrame [("it", .vStr "OUT")]] ++
        [⟨jsSetOwnProp (spreadOwn [("it", false, .vStr "OUT")]) "it" (.vStr "IN1"),
          []⟩])
      "it" = .vStr "IN1" := by
  have h : splitChar '.' "it".data = ["it".data] := rfl
  exact ⟨h, c10_loop_scoping_pure.1 [dataFrame [("it", .vStr "OUT")]]
    [("it", false, .vStr "OUT")] "it" (.vStr "IN1") h⟩

end CryTpl
